import Mathlib

/-!
Verification development for the usbvfiod XHCI controller emulation.

The definitions below are a shallow embedding of the Rust sources:

- src/device/bus.rs            (memory requests, the memory bus)
- src/device/register_set.rs   (masked MMIO register windows)
- src/device/interval.rs       (range intersection and overlap)
- src/device/pci/trb.rs        (TRB parsing and event TRB encoding)
- src/device/pci/rings.rs      (event ring, command ring, transfer ring)
- src/device/pci/device_slots.rs (slot manager, device and endpoint contexts)
- src/device/pci/xhci.rs       (controller register actions and command handling)
- src/device/pci/nusb.rs       (endpoint worker loops, modelled as operation traces)

Machine integers are modelled as Nat with explicit reduction modulo 2^64
where the Rust code wraps. Guest memory is a function from addresses to
bytes. Fallible or aborting code paths return the Res type, whose crash
constructor marks the places where the Rust code stops the process.
-/

set_option maxHeartbeats 4000000

/-- Outcome of an operation that can abort the process. -/
inductive Res (α : Type) where
  | crash : Res α
  | ok : α → Res α
deriving DecidableEq, Repr

/-- The u64 modulus. -/
def U64MOD : Nat := 18446744073709551616

/-- Reduce a number modulo 2 to the power of 64, like Rust u64 wrapping arithmetic. -/
def wrap64 (x : Nat) : Nat := x % U64MOD

/-- Guest memory: a mapping from (wrapped) addresses to byte values. -/
def Mem : Type := Nat → Nat

/-- Read one byte of guest memory. Addresses wrap at 2 to the 64 and the
result is always a byte value. -/
def readByte (m : Mem) (a : Nat) : Nat := m (wrap64 a) % 256

/-- Write one byte of guest memory; the stored value is reduced to a byte. -/
def writeByte (m : Mem) (a v : Nat) : Mem :=
  fun x => if x = wrap64 a then v % 256 else m x

/-- Little-endian read of n consecutive bytes, least significant byte first.
This models the atomic little-endian loads of the memory-segment bus device. -/
def readLE (m : Mem) (a : Nat) : Nat → Nat
  | 0 => 0
  | n + 1 => readByte m a + 256 * readLE m (a + 1) n

/-- Little-endian write of n consecutive bytes of the value v. -/
def writeLE (m : Mem) (a : Nat) : Nat → Nat → Mem
  | 0, _ => m
  | n + 1, v => writeLE (writeByte m a v) (a + 1) n (v / 256)

/-- Bulk read of n consecutive bytes, as in the read_bulk bus default method. -/
def readBulk (m : Mem) (a : Nat) : Nat → List Nat
  | 0 => []
  | n + 1 => readByte m a :: readBulk m (a + 1) n

/-- Bulk write of a byte list, as in the write_bulk bus default method. -/
def writeBulk (m : Mem) (a : Nat) : List Nat → Mem
  | [] => m
  | b :: bs => writeBulk (writeByte m a b) (a + 1) bs

/-- Fetch byte i of a raw buffer (defaults to 0 past the end). -/
def bget (l : List Nat) (i : Nat) : Nat := l.getD i 0

/-- Combine a byte list into a little-endian value, as u64 from_le_bytes does. -/
def bytesLE : List Nat → Nat
  | [] => 0
  | b :: bs => b % 256 + 256 * bytesLE bs

/-- Little-endian value of n bytes starting at index i of a buffer. -/
def sliceLE (l : List Nat) (i n : Nat) : Nat := bytesLE ((l.drop i).take n)

/-!
TRB layer, from src/device/pci/trb.rs and
src/device/pci/constants.rs (module xhci::rings::trb_types).
-/

/-- TRB type identifiers, from constants.rs (trb_types). -/
def trbTypeNORMAL : Nat := 1

def trbTypeSETUP_STAGE : Nat := 2

def trbTypeDATA_STAGE : Nat := 3

def trbTypeSTATUS_STAGE : Nat := 4

def trbTypeISOCH : Nat := 5

def trbTypeLINK : Nat := 6

def trbTypeEVENT_DATA : Nat := 7

def trbTypeNO_OP : Nat := 8

def trbTypeENABLE_SLOT : Nat := 9

def trbTypeDISABLE_SLOT : Nat := 10

def trbTypeADDRESS_DEVICE : Nat := 11

def trbTypeCONFIGURE_ENDPOINT : Nat := 12

def trbTypeEVALUATE_CONTEXT : Nat := 13

def trbTypeRESET_ENDPOINT : Nat := 14

def trbTypeSTOP_ENDPOINT : Nat := 15

def trbTypeSET_TR_DEQUEUE_POINTER : Nat := 16

def trbTypeRESET_DEVICE : Nat := 17

def trbTypeFORCE_EVENT : Nat := 18

def trbTypeNEGOTIATE_BANDWIDTH : Nat := 19

def trbTypeSET_LATENCY_TOLERANCE_VALUE : Nat := 20

def trbTypeGET_PORT_BANDWIDTH : Nat := 21

def trbTypeFORCE_HEADER : Nat := 22

def trbTypeNO_OP_COMMAND : Nat := 23

def trbTypeTRANSFER_EVENT : Nat := 32

def trbTypeCOMMAND_COMPLETION_EVENT : Nat := 33

def trbTypePORT_STATUS_CHANGE_EVENT : Nat := 34

/-- The TRB type field of a 16-byte buffer: byte 13 shifted right by 2. -/
def trbTypeOf (b : List Nat) : Nat := bget b 13 / 4

/-- Parse errors of the TRB codec, from trb.rs (TrbParseError). The
descriptive string payload of UnsupportedOptionalCommand is dropped. -/
inductive TrbParseError where
  | IncorrectSliceSize : Nat → TrbParseError
  | UnsupportedOptionalCommand : Nat → TrbParseError
  | UnknownTrbType : Nat → TrbParseError
  | RsvdZViolation : TrbParseError
deriving DecidableEq, Repr

/-- Link TRB payload, from trb.rs (LinkTrbData). -/
structure LinkTrbData where
  ring_segment_pointer : Nat
  toggle_cycle : Bool
deriving DecidableEq, Repr

/-- LinkTrbData parse, from trb.rs. The ring segment pointer is bytes 0..8
little endian; its four lowest bits are RsvdZ; toggle cycle is bit 1 of
byte 12. -/
def LinkTrbData.parse (b : List Nat) : Except TrbParseError LinkTrbData :=
  let ring_segment_pointer := sliceLE b 0 8
  let toggle_cycle := bget b 12 &&& 2 ≠ 0
  if ring_segment_pointer &&& 15 ≠ 0 then
    .error .RsvdZViolation
  else
    .ok { ring_segment_pointer, toggle_cycle }

/-- Address Device Command TRB payload, from trb.rs. -/
structure AddressDeviceCommandTrbData where
  input_context_pointer : Nat
  block_set_address_request : Bool
  slot_id : Nat
deriving DecidableEq, Repr

/-- AddressDeviceCommandTrbData parse, from trb.rs. The input context
pointer is bytes 0..8 little endian with RsvdZ low four bits; BSR is bit 1
of byte 13; the slot id is byte 15. -/
def AddressDeviceCommandTrbData.parse (b : List Nat) :
    Except TrbParseError AddressDeviceCommandTrbData :=
  let input_context_pointer := sliceLE b 0 8
  if input_context_pointer &&& 15 ≠ 0 then
    .error .RsvdZViolation
  else
    .ok { input_context_pointer,
          block_set_address_request := bget b 13 &&& 2 ≠ 0,
          slot_id := bget b 15 }

/-- Setup Stage TRB payload, from trb.rs (SetupStageTrbData). -/
structure SetupStageTrbData where
  request_type : Nat
  request : Nat
  value : Nat
  index : Nat
  length : Nat
deriving DecidableEq, Repr

/-- SetupStageTrbData parse, from trb.rs: bytes 0 and 1 are request type
and request, bytes 2..8 are the three little-endian 16-bit fields. -/
def SetupStageTrbData.parse (b : List Nat) : Except TrbParseError SetupStageTrbData :=
  .ok { request_type := bget b 0,
        request := bget b 1,
        value := bget b 2 + 256 * bget b 3,
        index := bget b 4 + 256 * bget b 5,
        length := bget b 6 + 256 * bget b 7 }

/-- Data Stage TRB payload, from trb.rs (DataStageTrbData). -/
structure DataStageTrbData where
  data_pointer : Nat
  chain : Bool
deriving DecidableEq, Repr

/-- DataStageTrbData parse, from trb.rs: the data pointer is bytes 0..8
little endian and chain is bit 4 of byte 12. Note that the source performs
no RsvdZ check on the data pointer. -/
def DataStageTrbData.parse (b : List Nat) : Except TrbParseError DataStageTrbData :=
  .ok { data_pointer := sliceLE b 0 8,
        chain := bget b 12 &&& 16 ≠ 0 }

/-- Command TRBs as parsed by the codec in trb.rs (enum CommandTrb). -/
inductive CommandTrbParsed where
  | EnableSlot
  | DisableSlot
  | AddressDevice : AddressDeviceCommandTrbData → CommandTrbParsed
  | ConfigureEndpoint
  | EvaluateContext
  | ResetEndpoint
  | StopEndpoint
  | SetTrDequeuePointer
  | ResetDevice
  | ForceHeader
  | NoOp
  | Link : LinkTrbData → CommandTrbParsed
deriving DecidableEq, Repr

/-- Command TRB decoding, from the TryFrom implementation for CommandTrb in
trb.rs: dispatch on the type field of byte 13, reject the unsupported
optional commands and unknown types. -/
def CommandTrbParsed.tryFrom (b : List Nat) : Except TrbParseError CommandTrbParsed :=
  if b.length ≠ 16 then
    .error (.IncorrectSliceSize b.length)
  else
    let t := trbTypeOf b
    if t = trbTypeLINK then
      (LinkTrbData.parse b).map .Link
    else if t = trbTypeENABLE_SLOT then .ok .EnableSlot
    else if t = trbTypeDISABLE_SLOT then .ok .DisableSlot
    else if t = trbTypeADDRESS_DEVICE then
      (AddressDeviceCommandTrbData.parse b).map .AddressDevice
    else if t = trbTypeCONFIGURE_ENDPOINT then .ok .ConfigureEndpoint
    else if t = trbTypeEVALUATE_CONTEXT then .ok .EvaluateContext
    else if t = trbTypeRESET_ENDPOINT then .ok .ResetEndpoint
    else if t = trbTypeSTOP_ENDPOINT then .ok .StopEndpoint
    else if t = trbTypeSET_TR_DEQUEUE_POINTER then .ok .SetTrDequeuePointer
    else if t = trbTypeRESET_DEVICE then .ok .ResetDevice
    else if t = trbTypeFORCE_EVENT then .error (.UnsupportedOptionalCommand 18)
    else if t = trbTypeNEGOTIATE_BANDWIDTH then .error (.UnsupportedOptionalCommand 19)
    else if t = trbTypeSET_LATENCY_TOLERANCE_VALUE then .error (.UnsupportedOptionalCommand 20)
    else if t = trbTypeGET_PORT_BANDWIDTH then .error (.UnsupportedOptionalCommand 21)
    else if t = trbTypeFORCE_HEADER then .ok .ForceHeader
    else if t = trbTypeNO_OP_COMMAND then .ok .NoOp
    else .error (.UnknownTrbType t)

/-- Transfer TRBs as parsed by the codec in trb.rs (enum TransferTrb). -/
inductive TransferTrbParsed where
  | Normal
  | SetupStage : SetupStageTrbData → TransferTrbParsed
  | DataStage : DataStageTrbData → TransferTrbParsed
  | StatusStage
  | Isoch
  | Link : LinkTrbData → TransferTrbParsed
  | EventData
  | NoOp
deriving DecidableEq, Repr

/-- Transfer TRB decoding, from the TryFrom implementation for TransferTrb
in trb.rs. -/
def TransferTrbParsed.tryFrom (b : List Nat) : Except TrbParseError TransferTrbParsed :=
  if b.length ≠ 16 then
    .error (.IncorrectSliceSize b.length)
  else
    let t := trbTypeOf b
    if t = trbTypeNORMAL then .ok .Normal
    else if t = trbTypeSETUP_STAGE then (SetupStageTrbData.parse b).map .SetupStage
    else if t = trbTypeDATA_STAGE then (DataStageTrbData.parse b).map .DataStage
    else if t = trbTypeSTATUS_STAGE then .ok .StatusStage
    else if t = trbTypeISOCH then .ok .Isoch
    else if t = trbTypeLINK then (LinkTrbData.parse b).map .Link
    else if t = trbTypeEVENT_DATA then .ok .EventData
    else if t = trbTypeNO_OP then .ok .NoOp
    else .error (.UnknownTrbType t)

/-!
Variant wrappers used by the ring code. The snapshot of trb.rs predates the
CommandTrbVariant and TransferTrbVariant types that rings.rs, xhci.rs and
nusb.rs consume, so these wrappers are reconstructed from the specification
on top of the parse functions that trb.rs does contain.
-/

/-- Modelled from the spec: ConfigureEndpointCommandTrbData, referenced by
xhci.rs but absent from the trb.rs snapshot. The spec lists the fields
input_context_ptr, deconfigure and slot_id and the general RsvdZ rule for
pointer fields. -/
structure ConfigureEndpointCommandTrbData where
  input_context_pointer : Nat
  deconfigure : Bool
  slot_id : Nat
deriving DecidableEq, Repr

/-- Modelled from the spec: StopEndpointCommandTrbData, referenced by
xhci.rs but absent from the trb.rs snapshot; carries endpoint_id and
slot_id. -/
structure StopEndpointCommandTrbData where
  endpoint_id : Nat
  slot_id : Nat
deriving DecidableEq, Repr

/-- Modelled from the spec: ResetDeviceCommandTrbData, referenced by
xhci.rs but absent from the trb.rs snapshot; carries the slot_id. -/
structure ResetDeviceCommandTrbData where
  slot_id : Nat
deriving DecidableEq, Repr

/-- Modelled from the spec: the CommandTrbVariant tagged union of section 3
of the spec, with an Unrecognized variant carrying the raw bytes and the
parse error. -/
inductive CommandTrbVariant where
  | EnableSlot
  | DisableSlot
  | AddressDevice : AddressDeviceCommandTrbData → CommandTrbVariant
  | ConfigureEndpoint : ConfigureEndpointCommandTrbData → CommandTrbVariant
  | EvaluateContext
  | ResetEndpoint
  | StopEndpoint : StopEndpointCommandTrbData → CommandTrbVariant
  | SetTrDequeuePointer
  | ResetDevice : ResetDeviceCommandTrbData → CommandTrbVariant
  | ForceHeader
  | NoOp
  | Link : LinkTrbData → CommandTrbVariant
  | Unrecognized : List Nat → TrbParseError → CommandTrbVariant
deriving DecidableEq, Repr

/-- Modelled from the spec: total command TRB parse producing a
CommandTrbVariant. The dispatch and the Link and Address Device payload
parses mirror the TryFrom implementation in trb.rs; any parse error becomes
Unrecognized(raw, error). The payloads of Configure Endpoint, Stop Endpoint
and Reset Device follow the spec field lists (the XHCI layout: pointer in
bytes 0..8, endpoint id in the low five bits of byte 14, slot id in
byte 15, deconfigure in bit 1 of byte 13). -/
def CommandTrbVariant.parse (b : List Nat) : CommandTrbVariant :=
  if b.length ≠ 16 then
    .Unrecognized b (.IncorrectSliceSize b.length)
  else
    let t := trbTypeOf b
    if t = trbTypeLINK then
      match LinkTrbData.parse b with
      | .ok d => .Link d
      | .error e => .Unrecognized b e
    else if t = trbTypeENABLE_SLOT then .EnableSlot
    else if t = trbTypeDISABLE_SLOT then .DisableSlot
    else if t = trbTypeADDRESS_DEVICE then
      match AddressDeviceCommandTrbData.parse b with
      | .ok d => .AddressDevice d
      | .error e => .Unrecognized b e
    else if t = trbTypeCONFIGURE_ENDPOINT then
      if sliceLE b 0 8 &&& 15 ≠ 0 then .Unrecognized b .RsvdZViolation
      else .ConfigureEndpoint
        { input_context_pointer := sliceLE b 0 8,
          deconfigure := bget b 13 &&& 2 ≠ 0,
          slot_id := bget b 15 }
    else if t = trbTypeEVALUATE_CONTEXT then .EvaluateContext
    else if t = trbTypeRESET_ENDPOINT then .ResetEndpoint
    else if t = trbTypeSTOP_ENDPOINT then
      .StopEndpoint { endpoint_id := bget b 14 &&& 31, slot_id := bget b 15 }
    else if t = trbTypeSET_TR_DEQUEUE_POINTER then .SetTrDequeuePointer
    else if t = trbTypeRESET_DEVICE then .ResetDevice { slot_id := bget b 15 }
    else if t = trbTypeFORCE_EVENT then .Unrecognized b (.UnsupportedOptionalCommand 18)
    else if t = trbTypeNEGOTIATE_BANDWIDTH then .Unrecognized b (.UnsupportedOptionalCommand 19)
    else if t = trbTypeSET_LATENCY_TOLERANCE_VALUE then
      .Unrecognized b (.UnsupportedOptionalCommand 20)
    else if t = trbTypeGET_PORT_BANDWIDTH then .Unrecognized b (.UnsupportedOptionalCommand 21)
    else if t = trbTypeFORCE_HEADER then .ForceHeader
    else if t = trbTypeNO_OP_COMMAND then .NoOp
    else .Unrecognized b (.UnknownTrbType t)

/-- Modelled from the spec: NormalTrbData, referenced by nusb.rs but absent
from the trb.rs snapshot; carries data_ptr, transfer_length and
interrupt_on_completion (XHCI layout: pointer in bytes 0..8, length in the
low 17 bits of bytes 8..12, IOC in bit 5 of byte 12). -/
structure NormalTrbData where
  data_pointer : Nat
  transfer_length : Nat
  interrupt_on_completion : Bool
deriving DecidableEq, Repr

/-- Modelled from the spec: the TransferTrbVariant tagged union of section
3 of the spec. -/
inductive TransferTrbVariant where
  | Normal : NormalTrbData → TransferTrbVariant
  | SetupStage : SetupStageTrbData → TransferTrbVariant
  | DataStage : DataStageTrbData → TransferTrbVariant
  | StatusStage
  | Isoch
  | Link : LinkTrbData → TransferTrbVariant
  | EventData
  | NoOp
  | Unrecognized : List Nat → TrbParseError → TransferTrbVariant
deriving DecidableEq, Repr

/-- Modelled from the spec: total transfer TRB parse producing a
TransferTrbVariant. The dispatch and the Setup, Data and Link payload
parses mirror the TryFrom implementation in trb.rs; parse errors become
Unrecognized(raw, error). -/
def TransferTrbVariant.parse (b : List Nat) : TransferTrbVariant :=
  if b.length ≠ 16 then
    .Unrecognized b (.IncorrectSliceSize b.length)
  else
    let t := trbTypeOf b
    if t = trbTypeNORMAL then
      .Normal { data_pointer := sliceLE b 0 8,
                transfer_length := sliceLE b 8 4 &&& 131071,
                interrupt_on_completion := bget b 12 &&& 32 ≠ 0 }
    else if t = trbTypeSETUP_STAGE then
      match SetupStageTrbData.parse b with
      | .ok d => .SetupStage d
      | .error e => .Unrecognized b e
    else if t = trbTypeDATA_STAGE then
      match DataStageTrbData.parse b with
      | .ok d => .DataStage d
      | .error e => .Unrecognized b e
    else if t = trbTypeSTATUS_STAGE then .StatusStage
    else if t = trbTypeISOCH then .Isoch
    else if t = trbTypeLINK then
      match LinkTrbData.parse b with
      | .ok d => .Link d
      | .error e => .Unrecognized b e
    else if t = trbTypeEVENT_DATA then .EventData
    else if t = trbTypeNO_OP then .NoOp
    else .Unrecognized b (.UnknownTrbType t)

/-- A command TRB together with the guest address it was fetched from,
from rings.rs (struct CommandTrb used by the command ring). -/
structure CommandTrbAt where
  address : Nat
  variant : CommandTrbVariant
deriving DecidableEq, Repr

/-- A transfer TRB together with the guest address it was fetched from,
from rings.rs (struct TransferTrb used by the transfer ring). -/
structure TransferTrbAt where
  address : Nat
  variant : TransferTrbVariant
deriving DecidableEq, Repr

/-!
Event TRB encoding, from trb.rs (enum EventTrb and the to_bytes methods of
its payload structs).
-/

/-- Completion codes, from trb.rs (enum CompletionCode); the numeric value
is the discriminant. -/
def codeSuccess : Nat := 1

def codeNoSlotsAvailableError : Nat := 9

/-- Event TRBs the controller can produce, from trb.rs (enum EventTrb). -/
inductive EventTrb where
  | Transfer (trb_pointer trb_transfer_length completion_code : Nat)
      (event_data : Bool) (endpoint_id slot_id : Nat)
  | CommandCompletion (command_trb_pointer command_completion_parameter
      completion_code slot_id : Nat)
  | PortStatusChange (port_id : Nat)
deriving DecidableEq, Repr

/-- The n-byte little-endian encoding of a value. -/
def leBytes (v : Nat) : Nat → List Nat
  | 0 => []
  | n + 1 => v % 256 :: leBytes (v / 256) n

/-- Byte layout of the event-type specific TRB data, from the to_bytes
methods of the payload structs in trb.rs. -/
def EventTrb.payloadBytes : EventTrb → List Nat
  | .Transfer p len code ed ep slot =>
      leBytes p 8 ++ leBytes len 3 ++
        [code, (if ed then 4 else 0), trbTypeTRANSFER_EVENT * 4, ep, slot]
  | .CommandCompletion p par code slot =>
      leBytes p 8 ++ leBytes par 3 ++
        [code, 0, trbTypeCOMMAND_COMPLETION_EVENT * 4, 0, slot]
  | .PortStatusChange port =>
      [0, 0, 0, port, 0, 0, 0, 0, 0, 0, 0, codeSuccess, 0,
        trbTypePORT_STATUS_CHANGE_EVENT * 4, 0, 0]

/-- EventTrb to_bytes, from trb.rs: lay out the payload and then stamp the
cycle bit into bit 0 of byte 12. -/
def EventTrb.to_bytes (e : EventTrb) (cycle_bit : Bool) : List Nat :=
  let raw := e.payloadBytes
  (raw.take 12) ++
    [(bget raw 12 &&& 254) ||| (if cycle_bit then 1 else 0)] ++
    (raw.drop 13)

/-!
Event Ring, from rings.rs (struct EventRing).
-/

/-- ERST entry field offsets, from constants.rs
(segments_table_entry_offsets): base address at 0, size at 8. -/
def erstBASE_ADDR : Nat := 0

def erstSIZE : Nat := 8

/-- TRB_SIZE from constants.rs. -/
def TRB_SIZE : Nat := 16

/-- Event Ring state, from rings.rs. The guest memory is kept separate. -/
structure EventRing where
  base_address : Nat
  dequeue_pointer : Nat
  enqueue_pointer : Nat
  trb_count : Nat
  erst_count : Nat
  cycle_state : Bool
  erst_size : Nat
deriving DecidableEq, Repr

/-- EventRing::check_event_ring_full, from rings.rs: with one slot left in
the segment compare the dequeue pointer against the next segment base read
from the ERST, otherwise against the enqueue pointer plus one TRB. -/
def EventRing.check_event_ring_full (r : EventRing) (m : Mem) : Bool :=
  if r.trb_count = 1 then
    let next_seg := (r.erst_count + 1) % r.erst_size
    let entry_addr := wrap64 (r.base_address + next_seg * 16)
    r.dequeue_pointer = readLE m (wrap64 (entry_addr + erstBASE_ADDR)) 8
  else
    r.dequeue_pointer = wrap64 (r.enqueue_pointer + TRB_SIZE)

/-- EventRing::advance_segment_or_wrap, from rings.rs: step to the next
ERST entry, wrapping to entry 0 and flipping the producer cycle at the end,
then reload the enqueue pointer and TRB count from the entry. -/
def EventRing.advance_segment_or_wrap (r : EventRing) (m : Mem) : EventRing :=
  let ec := r.erst_count + 1
  let wrapped := ec = r.erst_size
  let cycle := if wrapped then !r.cycle_state else r.cycle_state
  let ec := if wrapped then 0 else ec
  let entry_addr := wrap64 (r.base_address + ec * 16)
  { r with
    erst_count := ec,
    cycle_state := cycle,
    enqueue_pointer := readLE m (wrap64 (entry_addr + erstBASE_ADDR)) 8,
    trb_count := readLE m (wrap64 (entry_addr + erstSIZE)) 4 }

/-- EventRing::advance_enqueue_pointer, from rings.rs. -/
def EventRing.advance_enqueue_pointer (r : EventRing) (m : Mem) : EventRing :=
  if r.trb_count = 0 then
    r.advance_segment_or_wrap m
  else
    { r with enqueue_pointer := wrap64 (r.enqueue_pointer + TRB_SIZE) }

/-- EventRing::enqueue, from rings.rs: crash on a full ring (todo in the
source), otherwise DMA-write the TRB stamped with the producer cycle at the
enqueue pointer, decrement the segment TRB count and advance. -/
def EventRing.enqueue (r : EventRing) (m : Mem) (trb : EventTrb) :
    Res (EventRing × Mem) :=
  if r.check_event_ring_full m then
    .crash
  else
    let m := writeBulk m r.enqueue_pointer (trb.to_bytes r.cycle_state)
    let r := { r with trb_count := r.trb_count - 1 }
    .ok (r.advance_enqueue_pointer m, m)

/-- Enqueue a list of event TRBs in order. -/
def EventRing.enqueueList (r : EventRing) (m : Mem) : List EventTrb → Res (EventRing × Mem)
  | [] => .ok (r, m)
  | e :: es =>
    match r.enqueue m e with
    | .crash => .crash
    | .ok (r', m') => r'.enqueueList m' es

/-!
Command Ring, from rings.rs (struct CommandRing).
-/

/-- CRCR bit constants, from constants.rs (operational::crcr). -/
def crcrRCS : Nat := 1

def crcrCS : Nat := 2

def crcrCA : Nat := 4

def crcrDEQUEUE_POINTER_MASK : Nat := U64MOD - 64

/-- Command Ring state, from rings.rs. -/
structure CommandRing where
  running : Bool
  dequeue_pointer : Nat
  cycle_state : Bool
deriving DecidableEq, Repr

/-- CommandRing::control, from rings.rs: while not running, a CRCR write
installs the 64-byte aligned dequeue pointer and takes the RCS bit as the
consumer cycle state; while running, CA or CS writes hit a todo (crash) and
other writes are ignored. -/
def CommandRing.control (r : CommandRing) (value : Nat) : Res CommandRing :=
  if r.running then
    if value &&& crcrCA ≠ 0 then .crash
    else if value &&& crcrCS ≠ 0 then .crash
    else .ok r
  else
    .ok { r with
          dequeue_pointer := value &&& crcrDEQUEUE_POINTER_MASK,
          cycle_state := value &&& crcrRCS ≠ 0 }

/-- CommandRing::next_trb_buffer, from rings.rs: DMA-read 16 bytes at the
dequeue pointer and return them only when the cycle bit of byte 12 matches
the consumer cycle state. -/
def CommandRing.next_trb_buffer (r : CommandRing) (m : Mem) : Option (List Nat) :=
  let trb_buffer := readBulk m r.dequeue_pointer 16
  let cycle_bit := bget trb_buffer 12 &&& 1 ≠ 0
  if cycle_bit ≠ r.cycle_state then
    none
  else
    some trb_buffer

/-- CommandRing::next_command_trb, from rings.rs: fetch a fresh TRB; chase
one Link TRB by installing its segment pointer and toggling the cycle on
demand, then fetch again; two consecutive Links crash; finally advance the
dequeue pointer by one TRB and return the parsed command with its
pre-advance address. -/
def CommandRing.next_command_trb (r : CommandRing) (m : Mem) :
    Res (Option CommandTrbAt × CommandRing) :=
  match r.next_trb_buffer m with
  | none => .ok (none, r)
  | some first_buffer =>
    match CommandTrbVariant.parse first_buffer with
    | .Link link_data =>
      let r := { r with
                 dequeue_pointer := link_data.ring_segment_pointer,
                 cycle_state := if link_data.toggle_cycle then !r.cycle_state
                                else r.cycle_state }
      match r.next_trb_buffer m with
      | none => .ok (none, r)
      | some second_buffer =>
        match CommandTrbVariant.parse second_buffer with
        | .Link _ => .crash
        | v =>
          .ok (some { address := r.dequeue_pointer, variant := v },
               { r with dequeue_pointer := wrap64 (r.dequeue_pointer + TRB_SIZE) })
    | v =>
      .ok (some { address := r.dequeue_pointer, variant := v },
           { r with dequeue_pointer := wrap64 (r.dequeue_pointer + TRB_SIZE) })

/-!
Endpoint contexts and the Transfer Ring, from device_slots.rs and rings.rs.
-/

/-- Endpoint context wrapper, from device_slots.rs (struct EndpointContext):
only the guest address of the 32-byte context; all state is in guest memory. -/
structure EndpointContext where
  address : Nat
deriving DecidableEq, Repr

/-- EndpointContext::get_dequeue_pointer_and_cycle_state, from
device_slots.rs: an 8-byte read at context offset 8; the dequeue pointer
masks off the low four bits, the cycle state is bit 0. -/
def EndpointContext.get_dequeue_pointer_and_cycle_state
    (e : EndpointContext) (m : Mem) : Nat × Bool :=
  let bytes := readLE m (wrap64 (e.address + 8)) 8
  (bytes &&& (U64MOD - 16), bytes &&& 1 ≠ 0)

/-- EndpointContext::set_dequeue_pointer_and_cycle_state, from
device_slots.rs: asserts 16-byte alignment (crash otherwise) and writes
pointer and cycle bit back as one 8-byte value. -/
def EndpointContext.set_dequeue_pointer_and_cycle_state
    (e : EndpointContext) (m : Mem) (dequeue_pointer : Nat) (cycle_state : Bool) :
    Res Mem :=
  if dequeue_pointer &&& 15 ≠ 0 then
    .crash
  else
    .ok (writeLE m (wrap64 (e.address + 8)) 8
          (dequeue_pointer ||| (if cycle_state then 1 else 0)))

/-- Transfer Ring wrapper, from rings.rs (struct TransferRing). -/
structure TransferRing where
  endpoint_context : EndpointContext
deriving DecidableEq, Repr

/-- TransferRing::next_trb_buffer, from rings.rs: read the dequeue state
from the endpoint context, DMA-read 16 bytes at the dequeue pointer, and
return them only when the cycle bit matches. -/
def TransferRing.next_trb_buffer (t : TransferRing) (m : Mem) : Option (List Nat) :=
  let (dequeue_pointer, cycle_state) :=
    t.endpoint_context.get_dequeue_pointer_and_cycle_state m
  let trb_buffer := readBulk m dequeue_pointer 16
  let cycle_bit := bget trb_buffer 12 &&& 1 ≠ 0
  if cycle_bit ≠ cycle_state then
    none
  else
    some trb_buffer

/-- TransferRing::next_transfer_trb, from rings.rs: like the command ring
but with the dequeue state living in the endpoint context in guest memory;
Link TRBs are chased once with a state write-back, two consecutive Links
crash, and the final dequeue state is written back advanced by one TRB. -/
def TransferRing.next_transfer_trb (t : TransferRing) (m : Mem) :
    Res (Option TransferTrbAt × Mem) :=
  let (dp0, cs0) := t.endpoint_context.get_dequeue_pointer_and_cycle_state m
  match t.next_trb_buffer m with
  | none => .ok (none, m)
  | some first_buffer =>
    match TransferTrbVariant.parse first_buffer with
    | .Link link_data =>
      let dp := link_data.ring_segment_pointer
      let cs := if link_data.toggle_cycle then !cs0 else cs0
      match t.endpoint_context.set_dequeue_pointer_and_cycle_state m dp cs with
      | .crash => .crash
      | .ok m1 =>
        match t.next_trb_buffer m1 with
        | none => .ok (none, m1)
        | some second_buffer =>
          match TransferTrbVariant.parse second_buffer with
          | .Link _ => .crash
          | v =>
            match t.endpoint_context.set_dequeue_pointer_and_cycle_state m1
                (wrap64 (dp + TRB_SIZE)) cs with
            | .crash => .crash
            | .ok m2 => .ok (some { address := dp, variant := v }, m2)
    | v =>
      match t.endpoint_context.set_dequeue_pointer_and_cycle_state m
          (wrap64 (dp0 + TRB_SIZE)) cs0 with
      | .crash => .crash
      | .ok m2 => .ok (some { address := dp0, variant := v }, m2)

/-!
Control request reassembly, from rings.rs (TransferRing::next_request),
plus the UsbRequest record whose address field is the guest address of the
Status Stage TRB.
-/

/-- Parse errors of request reassembly, from rings.rs
(enum RequestParseError). -/
inductive RequestParseError where
  | UnexpectedTrbType : List Nat → TransferTrbVariant → RequestParseError
  | MissingTrb
deriving DecidableEq, Repr

/-- A reassembled USB control request, from usbrequest.rs together with the
address field that rings.rs populates with the Status Stage TRB address. -/
structure UsbRequest where
  address : Nat
  request_type : Nat
  request : Nat
  value : Nat
  index : Nat
  length : Nat
  data : Option Nat
deriving DecidableEq, Repr

/-- TransferRing::next_request, from rings.rs: take a Setup Stage TRB, an
optional Data Stage TRB (chain set hits a todo and crashes) and a Status
Stage TRB from the ring and assemble a UsbRequest; a missing follow-up TRB
yields MissingTrb and a wrong TRB type yields UnexpectedTrbType. -/
def TransferRing.next_request (t : TransferRing) (m : Mem) :
    Res (Option (Except RequestParseError UsbRequest) × Mem) :=
  match t.next_transfer_trb m with
  | .crash => .crash
  | .ok (none, m1) => .ok (none, m1)
  | .ok (some first_trb, m1) =>
    match first_trb.variant with
    | .SetupStage setup_trb_data =>
      match t.next_transfer_trb m1 with
      | .crash => .crash
      | .ok (none, m2) => .ok (some (.error .MissingTrb), m2)
      | .ok (some second_trb, m2) =>
        match second_trb.variant with
        | .DataStage data =>
          if data.chain then
            .crash
          else
            match t.next_transfer_trb m2 with
            | .crash => .crash
            | .ok (none, m3) => .ok (some (.error .MissingTrb), m3)
            | .ok (some third_trb, m3) =>
              match third_trb.variant with
              | .StatusStage =>
                .ok (some (.ok
                  { address := third_trb.address,
                    request_type := setup_trb_data.request_type,
                    request := setup_trb_data.request,
                    value := setup_trb_data.value,
                    index := setup_trb_data.index,
                    length := setup_trb_data.length,
                    data := some data.data_pointer }), m3)
              | v =>
                .ok (some (.error
                  (.UnexpectedTrbType [trbTypeSTATUS_STAGE] v)), m3)
        | .StatusStage =>
          .ok (some (.ok
            { address := second_trb.address,
              request_type := setup_trb_data.request_type,
              request := setup_trb_data.request,
              value := setup_trb_data.value,
              index := setup_trb_data.index,
              length := setup_trb_data.length,
              data := none }), m2)
        | v =>
          .ok (some (.error
            (.UnexpectedTrbType [trbTypeDATA_STAGE, trbTypeSTATUS_STAGE] v)), m2)
    | v =>
      .ok (some (.error (.UnexpectedTrbType [trbTypeSETUP_STAGE] v)), m1)

/-!
Device slots and device contexts, from device_slots.rs.
-/

/-- Device slot manager state, from device_slots.rs
(struct DeviceSlotManager). -/
structure DeviceSlotManager where
  num_slots : Nat
  used_slots : List Nat
  dcbaap : Nat
deriving DecidableEq, Repr

/-- DeviceSlotManager::set_dcbaap, from device_slots.rs. -/
def DeviceSlotManager.set_dcbaap (s : DeviceSlotManager) (v : Nat) : DeviceSlotManager :=
  { s with dcbaap := v }

/-- DeviceSlotManager::reserve_slot, from device_slots.rs: the first id in
1..=num_slots not yet in used_slots; record and return it, or none. -/
def DeviceSlotManager.reserve_slot (s : DeviceSlotManager) :
    Option Nat × DeviceSlotManager :=
  match (List.range' 1 s.num_slots).find? (fun slot_id => ¬ s.used_slots.contains slot_id) with
  | none => (none, s)
  | some slot_id => (some slot_id, { s with used_slots := s.used_slots ++ [slot_id] })

/-- DeviceSlotManager::get_device_context, from device_slots.rs: assert the
slot is in use (crash otherwise) and DMA-read the device context address
from the DCBAA entry of the slot. -/
def DeviceSlotManager.get_device_context (s : DeviceSlotManager) (m : Mem)
    (slot_id : Nat) : Res Nat :=
  if ¬ s.used_slots.contains slot_id then
    .crash
  else
    .ok (readLE m (wrap64 (s.dcbaap + slot_id * 8)) 8)

/-- DeviceContext::initialize, from device_slots.rs: used for Address
Device. Read the 8-byte input control context and assert it equals
A0 and A1 with no drops (crash otherwise); read the 1056-byte input
context; overlay slot state Addressed (2 shifted into bits 7:3 of slot
context byte 15) and EP0 state Running (1 in EP0 context byte 0); then
copy bytes 32..96 to the device context address. -/
def DeviceContext.initialize (device_context_address : Nat) (m : Mem)
    (addr_input_context : Nat) : Res Mem :=
  let add_drop_flags := readLE m addr_input_context 8
  if add_drop_flags ≠ 12884901888 then
    .crash
  else
    let input_context := readBulk m addr_input_context 1056
    let input_context := input_context.set (32 + 15) (2 * 8)
    let input_context := input_context.set 64 1
    .ok (writeBulk m device_context_address ((input_context.drop 32).take 64))

/-- Modelled from the spec: slot state Configured, used by
configure_endpoints; the device_slots constants module is absent from the
constants.rs snapshot. The spec gives Configured the value 3. -/
def slotStateCONFIGURED : Nat := 3

/-- Modelled from the spec: endpoint states; the spec gives Running the
value 1, and Stopped is the XHCI value 3 used by the Stop Endpoint
handler. Disabled is 0. -/
def endpointStateDISABLED : Nat := 0

def endpointStateRUNNING : Nat := 1

def endpointStateSTOPPED : Nat := 3

/-- DeviceContext::set_endpoint_state, from device_slots.rs: a single-byte
DMA write to the state byte of the endpoint context. -/
def DeviceContext.set_endpoint_state (device_context_address : Nat) (m : Mem)
    (endpoint_id state : Nat) : Mem :=
  writeByte m (wrap64 (device_context_address + endpoint_id * 32)) state

/-- DeviceContext::configure_endpoints, from device_slots.rs: read drop and
add flags, read the 1024-byte slot and endpoint context area of the input
context, zero the state byte of dropped endpoints, copy added endpoint
contexts with their state byte forced to Running, assert A0 (crash
otherwise), force the slot state to Configured and copy the slot context.
Returns the list of enabled endpoint indices and the final memory. -/
def DeviceContext.configure_endpoints (device_context_address : Nat) (m : Mem)
    (addr_input_context : Nat) : Res (List Nat × Mem) :=
  let drop_flags := readLE m addr_input_context 4
  let add_flags := readLE m (addr_input_context + 4) 4
  let input_context := readBulk m (wrap64 (addr_input_context + 32)) 1024
  let m := (List.range' 2 30).foldl
    (fun mm i =>
      if drop_flags &&& (2 ^ i) = 0 then mm
      else writeByte mm (wrap64 (device_context_address + i * 32)) 0)
    m
  let step := (List.range' 1 31).foldl
    (fun (acc : List Nat × List Nat × Mem) i =>
      let (enabled, ictx, mm) := acc
      if add_flags &&& (2 ^ i) = 0 then acc
      else
        let ictx := ictx.set (i * 32) 1
        (enabled ++ [i], ictx,
         writeBulk mm (wrap64 (device_context_address + i * 32))
           ((ictx.drop (i * 32)).take 32)))
    ([], input_context, m)
  let (enabled_endpoints, ictx, m) := step
  if add_flags &&& 1 ≠ 1 then
    .crash
  else
    let ictx := ictx.set 15 (slotStateCONFIGURED * 8)
    .ok (enabled_endpoints, writeBulk m device_context_address (ictx.take 32))

/-- DeviceContext::get_transfer_ring, from device_slots.rs: look at the
state byte of the endpoint context; crash for a disabled endpoint, set the
state to Running unless it already is, and hand out the ring wrapper. -/
def DeviceContext.get_transfer_ring (device_context_address : Nat) (m : Mem)
    (endpoint_index : Nat) : Res (TransferRing × Mem) :=
  if endpoint_index < 1 ∨ 31 < endpoint_index then
    .crash
  else
    let addr := wrap64 (device_context_address + 32 * endpoint_index)
    let state := readByte m addr
    if state = endpointStateDISABLED then
      .crash
    else
      let m := if state = endpointStateRUNNING then m
               else writeByte m addr endpointStateRUNNING
      .ok ({ endpoint_context := { address := addr } }, m)

/-!
The XHCI controller, from xhci.rs. The interrupt line is modelled as a
counter of raised interrupts; PCI config space, MSI-X and PORTSC registers
are not needed by the claims about this component.
-/

/-- Modelled from the spec: USBSTS bit constants; the operational usbsts
constants module is absent from the constants.rs snapshot. The spec fixes
HCH as bit 0; EINT and PCD are the XHCI event-interrupt and port-change
bits 3 and 4. -/
def usbstsHCH : Nat := 1

def usbstsEINT : Nat := 8

def usbstsPCD : Nat := 16

/-- Controller state, from xhci.rs (struct XhciController), restricted to
the fields the verified claims touch. -/
structure XhciController where
  running : Bool
  command_ring : CommandRing
  event_ring : EventRing
  device_slot_manager : DeviceSlotManager
  interrupts : Nat
deriving DecidableEq, Repr

/-- XhciController::status, from xhci.rs: HCH is set exactly when the
controller is halted; EINT and PCD always read as set. -/
def XhciController.status (x : XhciController) : Nat :=
  (((if x.running then 1 else 0) ^^^ (U64MOD - 1)) &&& usbstsHCH) |||
    usbstsEINT ||| usbstsPCD

/-- XhciController::run, from xhci.rs: bit 0 of the written USBCMD value
becomes the running state; when it is set, a PortStatusChange event for
port 0 is enqueued on the event ring and the interrupt line is raised. -/
def XhciController.run (x : XhciController) (m : Mem) (usbcmd : Nat) :
    Res (XhciController × Mem) :=
  let x := { x with running := usbcmd &&& 1 = 1 }
  if x.running then
    match x.event_ring.enqueue m (.PortStatusChange 0) with
    | .crash => .crash
    | .ok (er, m) =>
      .ok ({ x with event_ring := er, interrupts := x.interrupts + 1 }, m)
  else
    .ok (x, m)

/-- XhciController::handle_enable_slot, from xhci.rs: reserve a slot and
produce Success with its id, or NoSlotsAvailableError with slot id 0. -/
def XhciController.handle_enable_slot (x : XhciController) :
    (Nat × Nat) × XhciController :=
  match x.device_slot_manager.reserve_slot with
  | (none, s) => ((codeNoSlotsAvailableError, 0), { x with device_slot_manager := s })
  | (some slot_id, s) => ((codeSuccess, slot_id), { x with device_slot_manager := s })

/-- XhciController::handle_command, from xhci.rs: dispatch on the command
variant, then enqueue a Command Completion Event whose pointer is the
command TRB address (a release fence precedes the enqueue in the source;
the pure state model has no reordering, the fence is examined separately in
the trace model), and raise the interrupt. The unimplemented commands,
among them No Op, hit todo and crash; Link is unreachable and Unrecognized
hits todo as well. -/
def XhciController.handle_command (x : XhciController) (m : Mem)
    (cmd : CommandTrbAt) : Res (XhciController × Mem) :=
  let after :
      Res ((Nat × Nat) × XhciController × Mem) :=
    match cmd.variant with
    | .EnableSlot =>
      let ((code, slot_id), x) := x.handle_enable_slot
      .ok ((code, slot_id), x, m)
    | .DisableSlot =>
      .ok ((codeSuccess, 1), x, m)
    | .AddressDevice data =>
      match x.device_slot_manager.get_device_context m data.slot_id with
      | .crash => .crash
      | .ok device_context_address =>
        match DeviceContext.initialize device_context_address m
            data.input_context_pointer with
        | .crash => .crash
        | .ok m => .ok ((codeSuccess, data.slot_id), x, m)
    | .ConfigureEndpoint data =>
      if data.deconfigure then .crash
      else
        match x.device_slot_manager.get_device_context m data.slot_id with
        | .crash => .crash
        | .ok device_context_address =>
          match DeviceContext.configure_endpoints device_context_address m
              data.input_context_pointer with
          | .crash => .crash
          | .ok (enabled_endpoints, m) =>
            let rings := enabled_endpoints.foldl
              (fun (acc : Res Mem) i =>
                match acc with
                | .crash => .crash
                | .ok mm =>
                  match DeviceContext.get_transfer_ring device_context_address mm i with
                  | .crash => .crash
                  | .ok (_, mm) => .ok mm)
              (.ok m)
            match rings with
            | .crash => .crash
            | .ok m => .ok ((codeSuccess, data.slot_id), x, m)
    | .EvaluateContext => .crash
    | .ResetEndpoint => .crash
    | .StopEndpoint data =>
      match x.device_slot_manager.get_device_context m data.slot_id with
      | .crash => .crash
      | .ok device_context_address =>
        .ok ((codeSuccess, data.slot_id), x,
          DeviceContext.set_endpoint_state device_context_address m
            data.endpoint_id endpointStateSTOPPED)
    | .SetTrDequeuePointer => .crash
    | .ResetDevice data => .ok ((codeSuccess, data.slot_id), x, m)
    | .ForceHeader => .crash
    | .NoOp => .crash
    | .Link _ => .crash
    | .Unrecognized _ _ => .crash
  match after with
  | .crash => .crash
  | .ok ((code, slot_id), x, m) =>
    let completion_event := EventTrb.CommandCompletion cmd.address 0 code slot_id
    match x.event_ring.enqueue m completion_event with
    | .crash => .crash
    | .ok (er, m) =>
      .ok ({ x with event_ring := er, interrupts := x.interrupts + 1 }, m)

/-- XhciController::doorbell_controller, from xhci.rs: drain the command
ring, handling each fetched command. The source loop runs until the ring
has no fresh TRB; the model takes a fuel bound on the number of commands. -/
def XhciController.doorbell_controller (fuel : Nat) (x : XhciController) (m : Mem) :
    Res (XhciController × Mem) :=
  match fuel with
  | 0 => .ok (x, m)
  | fuel + 1 =>
    match x.command_ring.next_command_trb m with
    | .crash => .crash
    | .ok (none, cr) => .ok ({ x with command_ring := cr }, m)
    | .ok (some cmd, cr) =>
      match XhciController.handle_command { x with command_ring := cr } m cmd with
      | .crash => .crash
      | .ok (x, m) => XhciController.doorbell_controller fuel x m

/-!
Register sets, from register_set.rs, and bus requests from bus.rs.
-/

/-- Request sizes, from bus.rs (enum RequestSize). -/
inductive RequestSize where
  | size1
  | size2
  | size4
  | size8
deriving DecidableEq, Repr

/-- Numeric value of a request size. -/
def RequestSize.toNat : RequestSize → Nat
  | .size1 => 1
  | .size2 => 2
  | .size4 => 4
  | .size8 => 8

/-- A bus request, from bus.rs (struct Request). -/
structure Request where
  addr : Nat
  size : RequestSize
deriving DecidableEq, Repr

/-- A register window, from register_set.rs (struct RegisterSet): per-byte
current value, read-write mask and write-one-clear mask. The compile-time
size bound is kept as a field. -/
structure RegisterSet where
  size : Nat
  data : Nat → Nat
  rw_mask : Nat → Nat
  w1c_mask : Nat → Nat

/-- The masked update of one byte, from the write loop body of
RegisterSet::write in register_set.rs: clear the writable bits, fill them
from the written byte, then clear every W1C bit written with one. The 8-bit
complement of a mask is its xor with 255. -/
def writeMaskedByte (old rw w1c b : Nat) : Nat :=
  ((old &&& (255 ^^^ rw)) ||| (b &&& rw)) &&& (255 ^^^ (b &&& w1c))

/-- Apply the per-byte masked writes of a byte list starting at an offset,
the loop of RegisterSet::write. -/
def RegisterSet.writeBytes (r : RegisterSet) (a : Nat) : List Nat → RegisterSet
  | [] => r
  | b :: bs =>
    ({ r with data := fun off =>
        if off = a then writeMaskedByte (r.data off) (r.rw_mask off) (r.w1c_mask off) b
        else r.data off } : RegisterSet).writeBytes (a + 1) bs

/-- RegisterSet::write, from register_set.rs: the written value is split
into little-endian bytes, one masked byte write per addressed offset. -/
def RegisterSet.write (r : RegisterSet) (req : Request) (val : Nat) : RegisterSet :=
  r.writeBytes req.addr (leBytes val req.size.toNat)

/-- RegisterSet::read, from register_set.rs: fold the addressed bytes into
a little-endian value. -/
def RegisterSet.read (r : RegisterSet) (req : Request) : Nat :=
  (List.range req.size.toNat).foldl
    (fun acc i => acc ||| ((r.data (req.addr + i)) <<< (8 * i))) 0

/-- Apply a sequence of masked writes. -/
def RegisterSet.applyWrites (r : RegisterSet) : List (Request × Nat) → RegisterSet
  | [] => r
  | (req, v) :: ws => (r.write req v).applyWrites ws

/-- The byte values that a write sequence sends to one particular offset. -/
def byteWritesAt (p : Nat) : List (Request × Nat) → List Nat
  | [] => []
  | (req, v) :: ws =>
    (if req.addr ≤ p ∧ p < req.addr + req.size.toNat
     then [v / 256 ^ (p - req.addr) % 256] else []) ++ byteWritesAt p ws

/-- Whether some write in the sequence wrote a one into bit j of the byte
at offset p. -/
def everWrittenOne (p j : Nat) (ws : List (Request × Nat)) : Bool :=
  (byteWritesAt p ws).any (fun b => b.testBit j)

/-!
The memory bus, from bus.rs and interval.rs. Devices are modelled by their
size and read behavior, which is all the bus lookup logic consumes.
-/

/-- A bus device stub: its claimed size and its read behavior. -/
structure MDevice where
  dsize : Nat
  readv : Request → Nat

/-- An entry of the bus: the claimed address range and the device. -/
structure BusEntry where
  range_start : Nat
  range_end : Nat
  device : MDevice

/-- The bus, from bus.rs (struct Bus): an entry list plus the default
device; the error device is a DefaultDevice of the same size whose
behavior (all-ones reads, dropped writes) is fixed. -/
structure Bus where
  devices : List BusEntry
  defaultDevice : MDevice

/-- Bus::size, from bus.rs: the size of the default device. -/
def Bus.size (b : Bus) : Nat := b.defaultDevice.dsize

/-- Range emptiness, as for Rust Range (start not below end). -/
def rangeIsEmpty (s e : Nat) : Bool := decide (e ≤ s)

/-- Interval overlap, from interval.rs: the receiver is nonempty and the
intersection (max of starts to min of ends) is nonempty. -/
def rangeOverlaps (s1 e1 s2 e2 : Nat) : Bool :=
  (!rangeIsEmpty s1 e1) && (!rangeIsEmpty (max s1 s2) (min e1 e2))

/-- Interval containment, from interval.rs: the intersection equals the
second range (Rust Range equality compares both endpoints). -/
def rangeContainsInterval (s1 e1 s2 e2 : Nat) : Bool :=
  (max s1 s2 = s2 : Bool) && (min e1 e2 = e2 : Bool)

/-- Errors of Bus::add, from bus.rs (enum AddBusDeviceError), carrying the
endpoint values of the offending ranges. -/
inductive AddBusDeviceError where
  | OverlapsExistingDevice (existing_start existing_end added_start added_end : Nat)
  | DeviceOutOfRange (bus_size added_start added_end : Nat)
deriving DecidableEq, Repr

/-- Bus::add, from bus.rs: reject a range whose end overflows u64
(DeviceOutOfRange with the wrapped end), a range ending beyond the bus
size (DeviceOutOfRange), and a range overlapping an existing entry
(OverlapsExistingDevice); otherwise push the entry. The mutable receiver
is returned alongside the result. -/
def Bus.add (b : Bus) (start_addr : Nat) (device : MDevice) :
    Option AddBusDeviceError × Bus :=
  if U64MOD ≤ start_addr + device.dsize then
    (some (.DeviceOutOfRange b.size start_addr (wrap64 (start_addr + device.dsize))), b)
  else
    let range_end := start_addr + device.dsize
    if b.size < range_end then
      (some (.DeviceOutOfRange b.size start_addr range_end), b)
    else
      match b.devices.find? (fun e =>
          rangeOverlaps e.range_start e.range_end start_addr range_end) with
      | some e =>
        (some (.OverlapsExistingDevice e.range_start e.range_end start_addr range_end), b)
      | none =>
        (none, { b with devices := b.devices ++
          [{ range_start := start_addr, range_end := range_end, device }] })

/-- Where the bus routes a request, from Bus::to_device_request in bus.rs. -/
inductive RouteResult where
  | toDevice (rel : Request) (d : MDevice)
  | toError (req : Request)
  | unmatched

/-- The entry scan of Bus::to_device_request: the first entry fully
containing the request wins; an entry merely overlapping it sends the
request to the error device. -/
def routeScan (req : Request) (req_end : Nat) : List BusEntry → RouteResult
  | [] => .unmatched
  | e :: es =>
    if rangeContainsInterval e.range_start e.range_end req.addr req_end then
      .toDevice { addr := req.addr - e.range_start, size := req.size } e.device
    else if rangeOverlaps e.range_start e.range_end req.addr req_end then
      .toError req
    else routeScan req req_end es

/-- Bus::to_device_request, from bus.rs: a request wrapping the address
space fails the range conversion and is treated as unmatched. -/
def Bus.to_device_request (b : Bus) (req : Request) : RouteResult :=
  if U64MOD < req.addr + req.size.toNat then .unmatched
  else routeScan req (req.addr + req.size.toNat) b.devices

/-- All-ones read result of the given width, the DefaultDevice read
behavior used for the error device. -/
def allOnes (s : RequestSize) : Nat := 256 ^ s.toNat - 1

/-- Bus::read, from bus.rs: route the request; contained requests reach
their device with a translated address, straddling requests reach the
error device (all-ones), unmatched requests reach the default device. -/
def Bus.read (b : Bus) (req : Request) : Nat :=
  match b.to_device_request req with
  | .toDevice rel d => d.readv rel
  | .toError r => allOnes r.size
  | .unmatched => b.defaultDevice.readv req

/-!
Operation traces for the memory-visibility discipline, from the statement
order of the source. One constructor per kind of step the discipline talks
about: guest-memory stores, guest-memory loads, release fences, event-ring
enqueues (the publication), interrupts, and host USB transfers.
-/

inductive ExecOp where
  | guestStore
  | guestLoad
  | releaseFence
  | enqueueEvent
  | raiseInterrupt
  | hostTransfer
deriving DecidableEq, Repr

/-- Checks that no guest-memory store is left unfenced when an event is
enqueued: scanning left to right with a dirty flag, a store sets the flag,
a release fence clears it, and an enqueue is only permitted while clean. -/
def releaseFenced : Bool → List ExecOp → Bool
  | _, [] => true
  | _, .guestStore :: rest => releaseFenced true rest
  | _, .releaseFence :: rest => releaseFenced false rest
  | dirty, .enqueueEvent :: rest => !dirty && releaseFenced dirty rest
  | dirty, _ :: rest => releaseFenced dirty rest

/-- The command execution path, from XhciController::handle_command in
xhci.rs lines 398 to 409: after the handler's stores comes an explicit
release fence, then the completion-event enqueue and the interrupt. The
handler stores are a parameter (for example Address Device performs a
write_bulk into the device context). -/
def handleCommandTrace (handler_stores : List ExecOp) : List ExecOp :=
  handler_stores ++ [.releaseFence, .enqueueEvent, .raiseInterrupt]

/-- The device-to-host control transfer path: check_control_endpoint in
xhci.rs pulls the request (endpoint-context dequeue stores by
next_request), calls control_transfer_device_to_host in nusb.rs (host
transfer, write_bulk of the data into the guest buffer, release fence),
then enqueues the transfer event and raises the interrupt. -/
def controlTransferInTrace : List ExecOp :=
  [.guestLoad, .guestStore, .hostTransfer, .guestStore, .releaseFence,
   .enqueueEvent, .raiseInterrupt]

/-- The host-to-device control transfer path: the request pull stores the
endpoint-context dequeue state, the payload is read from guest memory and
sent to the host (control_transfer_host_to_device in nusb.rs has no
fence), then the transfer event is enqueued and the interrupt raised. -/
def controlTransferOutTrace : List ExecOp :=
  [.guestLoad, .guestStore, .guestLoad, .hostTransfer,
   .enqueueEvent, .raiseInterrupt]

/-- One bulk-IN worker iteration, from transfer_in_worker in nusb.rs lines
377 to 499: pull a Normal TRB (endpoint-context dequeue store), submit and
await the host read, write_bulk the data to the guest buffer, and, when
interrupt-on-completion is set, enqueue the transfer event and raise the
interrupt. The source has no release fence on this path. -/
def transferInWorkerTrace (interrupt_on_completion : Bool) : List ExecOp :=
  [.guestLoad, .guestStore, .hostTransfer, .guestStore] ++
    (if interrupt_on_completion then [.enqueueEvent, .raiseInterrupt] else [])

/-- One bulk-OUT worker iteration, from transfer_out_worker in nusb.rs
lines 504 to 590: pull a Normal TRB (endpoint-context dequeue store), read
the payload from guest memory, submit and await the host write, and, when
interrupt-on-completion is set, enqueue the transfer event and raise the
interrupt. The source has no release fence on this path. -/
def transferOutWorkerTrace (interrupt_on_completion : Bool) : List ExecOp :=
  [.guestLoad, .guestStore, .guestLoad, .hostTransfer] ++
    (if interrupt_on_completion then [.enqueueEvent, .raiseInterrupt] else [])

/-- Discriminator for the Link variant of command TRBs. -/
def CommandTrbVariant.isLink : CommandTrbVariant → Bool
  | .Link _ => true
  | _ => false

/-- Discriminators for transfer TRB variants. -/
def TransferTrbVariant.isLink : TransferTrbVariant → Bool
  | .Link _ => true
  | _ => false

def TransferTrbVariant.isSetupStage : TransferTrbVariant → Bool
  | .SetupStage _ => true
  | _ => false

def TransferTrbVariant.isDataStage : TransferTrbVariant → Bool
  | .DataStage _ => true
  | _ => false

def TransferTrbVariant.isStatusStage : TransferTrbVariant → Bool
  | .StatusStage => true
  | _ => false

/-- The cycle bit of a raw TRB buffer: bit 0 of byte 12. -/
def trbCycleBit (b : List Nat) : Bool := decide (bget b 12 &&& 1 ≠ 0)

instance {ε α : Type} [DecidableEq ε] [DecidableEq α] : DecidableEq (Except ε α) :=
  fun x y =>
    match x, y with
    | .ok a, .ok b =>
      if h : a = b then .isTrue (congrArg Except.ok h)
      else .isFalse (fun hc => h (Except.ok.inj hc))
    | .error e, .error f =>
      if h : e = f then .isTrue (congrArg Except.error h)
      else .isFalse (fun hc => h (Except.error.inj hc))
    | .ok _, .error _ => .isFalse (fun hc => Except.noConfusion hc)
    | .error _, .ok _ => .isFalse (fun hc => Except.noConfusion hc)

/-- A concrete Data Stage TRB buffer whose data pointer has non-zero low
four bits: pointer 8, TRB type 3 in byte 13. -/
def c2DataStageBuf : List Nat := [8, 0, 0, 0, 0, 0, 0, 0, 0, 0, 0, 0, 0, 12, 0, 0]

/-- Memory for the Link-chase scenario of the spec: a Link TRB at address
256 pointing to 512 with toggle_cycle set and cycle bit 1, and a fresh
No Op Command at 512 with cycle bit 0. -/
def mE4 : Mem := fun a =>
  if a = 257 then 2
  else if a = 268 then 3
  else if a = 269 then 24
  else if a = 525 then 92
  else 0

/-- Command ring state for the Link-chase scenario: dequeue pointer 256,
consumer cycle 1. -/
def rE4 : CommandRing :=
  { running := false, dequeue_pointer := 256, cycle_state := true }

/-- A halted controller with a configured, non-full event ring, for the
run-transition scenario. -/
def xC7 : XhciController :=
  { running := false,
    command_ring := { running := false, dequeue_pointer := 0, cycle_state := false },
    event_ring :=
      { base_address := 0, dequeue_pointer := 32, enqueue_pointer := 48,
        trb_count := 3, erst_count := 0, cycle_state := true, erst_size := 1 },
    device_slot_manager := { num_slots := 1, used_slots := [], dcbaap := 0 },
    interrupts := 0 }

/-- All-zero guest memory. -/
def mZero : Mem := fun _ => 0

/-- Slot manager with slot 1 reserved and the DCBAA at address 0, for the
Address Device scenario. -/
def sC8 : DeviceSlotManager := { num_slots := 1, used_slots := [1], dcbaap := 0 }

/-- Guest memory for the Address Device scenario: DCBAA entry 1 (at
address 8) holds the device context address 8192; the input context at
4096 has add flags A0 and A1 and carries the byte 171 at slot-context
offset 0 (input byte 4128). -/
def mC8 : Mem := fun a =>
  if a = 9 then 32 else if a = 4100 then 3 else if a = 4128 then 171 else 0

/-- A register set with a W1C-only bit 0 whose initial value is 0, for the
Claim C9 counterexample. -/
def rC9 : RegisterSet :=
  { size := 1, data := fun _ => 0, rw_mask := fun _ => 0, w1c_mask := fun _ => 1 }

/-- A register set with writable low nibble and W1C bits 4 and 5, all data
bits initially set, for the Claim C9 witness. -/
def rC9w : RegisterSet :=
  { size := 2, data := fun _ => 255, rw_mask := fun _ => 15, w1c_mask := fun _ => 48 }

/-- Two one-byte writes to offset 0, for the Claim C9 witness. -/
def wsC9 : List (Request × Nat) :=
  [({ addr := 0, size := .size1 }, 33), ({ addr := 0, size := .size1 }, 18)]

/-- A two-entry bus over a 100-byte window, for the Claim C10 witness. -/
def busC10 : Bus :=
  { devices :=
      [{ range_start := 10, range_end := 20,
         device := { dsize := 10, readv := fun _ => 1 } }],
    defaultDevice := { dsize := 100, readv := fun _ => 3 } }

/-- Concrete guest memory for the Claim C6 witness: an endpoint context at
4096 whose dequeue field holds pointer 8192 with cycle 1, a GET_DESCRIPTOR
Setup Stage TRB at 8192, a Data Stage TRB with pointer 12288 at 8208 and a
Status Stage TRB at 8224, all with cycle bit 1. -/
def mC6 : Mem := fun a =>
  if a = 4104 then 1 else if a = 4105 then 32 else
  if a = 8192 then 128 else if a = 8193 then 6 else if a = 8195 then 1 else
  if a = 8198 then 18 else if a = 8204 then 1 else if a = 8205 then 8 else
  if a = 8209 then 48 else if a = 8220 then 1 else if a = 8221 then 12 else
  if a = 8236 then 1 else if a = 8237 then 16 else 0

/-- The transfer ring of the Claim C6 witness, over the endpoint context
at guest address 4096. -/
def tC6 : TransferRing := { endpoint_context := { address := 4096 } }

/-!
Event-ring wraparound, for Claim C5: an abstract ERST segment list and the
producer state the ring code maintains while walking it.
-/

/-- Base address of segment j of an ERST segment list (base, slot count). -/
def segBase (segs : List (Nat × Nat)) (j : Nat) : Nat := (segs.getD j (0, 0)).1

/-- Slot count of segment j of an ERST segment list. -/
def segCount (segs : List (Nat × Nat)) (j : Nat) : Nat := (segs.getD j (0, 0)).2

/-- Total TRB slots of the segments from index j on. -/
def tailCount (segs : List (Nat × Nat)) (j : Nat) : Nat :=
  ((segs.drop j).map (fun s => s.2)).sum

/-- The ERST at base_address describes the segment list: entry j holds the
segment base at offset 0 and the slot count at offset 8, as read by
EventRing::advance_segment_or_wrap and check_event_ring_full. -/
def erstMatches (m : Mem) (base_address : Nat) (segs : List (Nat × Nat)) : Prop :=
  ∀ j, j < segs.length →
    readLE m (base_address + j * 16) 8 = segBase segs j ∧
    readLE m (base_address + j * 16 + 8) 4 = segCount segs j

instance erstMatchesDec (m : Mem) (Bt : Nat) (segs : List (Nat × Nat)) :
    Decidable (erstMatches m Bt segs) := by
  unfold erstMatches
  exact inferInstance

/-- The EventRing producer state at slot i of ERST segment j, as the ring
code maintains it between enqueues. -/
def erState (segs : List (Nat × Nat)) (base_address dq : Nat) (j i : Nat)
    (c : Bool) : EventRing :=
  { base_address := base_address,
    dequeue_pointer := dq,
    enqueue_pointer := segBase segs j + 16 * i,
    trb_count := segCount segs j - i,
    erst_count := j,
    cycle_state := c,
    erst_size := segs.length }

/-- ERST segment list of the Claim C5 witness: segment 0 at 256 with 2
slots, segment 1 at 512 with 1 slot. -/
def segsE5 : List (Nat × Nat) := [(256, 2), (512, 1)]

/-- Guest memory of the Claim C5 witness: the ERST at address 0 holding the
two entries of segsE5. -/
def mE5 : Mem := fun a =>
  if a = 1 then 1 else if a = 8 then 2 else
  if a = 17 then 2 else if a = 24 then 1 else 0

/-- The three events of the Claim C5 witness, one per TRB slot. -/
def esE5 : List EventTrb :=
  [.PortStatusChange 0, .PortStatusChange 0, .PortStatusChange 0]

/- Basic lemmas about the memory model. -/

theorem readByte_lt (m : Mem) (a : Nat) : readByte m a < 256 :=
  Nat.mod_lt _ (by norm_num)

theorem readByte_writeByte_same (m : Mem) (a v : Nat) :
    readByte (writeByte m a v) a = v % 256 := by
  unfold readByte writeByte
  simp

theorem readByte_writeByte_other (m : Mem) (a b v : Nat)
    (h : wrap64 b ≠ wrap64 a) : readByte (writeByte m a v) b = readByte m b := by
  unfold readByte writeByte
  simp [h]

theorem writeBulk_readByte_out (m : Mem) (a : Nat) (bs : List Nat) (x : Nat)
    (hgood : a + bs.length < U64MOD) (hx : x < U64MOD)
    (hout : x < a ∨ a + bs.length ≤ x) :
    readByte (writeBulk m a bs) x = readByte m x := by
  induction bs generalizing m a with
  | nil => rfl
  | cons b bs ih =>
    simp only [writeBulk]
    rw [ih _ _ (by simp at hgood ⊢; omega) (by simp at hgood hout ⊢; omega)]
    apply readByte_writeByte_other
    have ha : wrap64 a = a := Nat.mod_eq_of_lt (by simp at hgood; omega)
    have hb : wrap64 x = x := Nat.mod_eq_of_lt hx
    simp only [ha, hb]
    simp at hout hgood
    omega

theorem writeBulk_readByte_in (m : Mem) (a : Nat) (bs : List Nat) (i : Nat)
    (hgood : a + bs.length < U64MOD) (hi : i < bs.length) :
    readByte (writeBulk m a bs) (a + i) = bget bs i % 256 := by
  induction bs generalizing m a i with
  | nil => simp at hi
  | cons b bs ih =>
    simp only [writeBulk]
    cases i with
    | zero =>
      rw [writeBulk_readByte_out _ _ _ _ (by simp at hgood ⊢; omega)
        (by simp at hgood; omega) (by simp at hgood; omega)]
      simpa [bget] using readByte_writeByte_same m a b
    | succ j =>
      have : a + (j + 1) = (a + 1) + j := by omega
      rw [this, ih _ _ _ (by simp at hgood ⊢; omega) (by simp at hi; omega)]
      rfl

theorem readLE_congr (m m' : Mem) (a n : Nat)
    (h : ∀ i, i < n → readByte m' (a + i) = readByte m (a + i)) :
    readLE m' a n = readLE m a n := by
  induction n generalizing a with
  | zero => rfl
  | succ k ih =>
    simp only [readLE]
    have h0 := h 0 (by omega)
    simp only [Nat.add_zero] at h0
    rw [h0]
    congr 1
    congr 1
    apply ih
    intro i hi
    have := h (1 + i) (by omega)
    rw [show a + (1 + i) = a + 1 + i by omega] at this
    exact this

theorem readBulk_congr (m m' : Mem) (a n : Nat)
    (h : ∀ i, i < n → readByte m' (a + i) = readByte m (a + i)) :
    readBulk m' a n = readBulk m a n := by
  induction n generalizing a with
  | zero => rfl
  | succ k ih =>
    simp only [readBulk]
    have h0 := h 0 (by omega)
    simp only [Nat.add_zero] at h0
    rw [h0]
    congr 1
    apply ih
    intro i hi
    have := h (1 + i) (by omega)
    rw [show a + (1 + i) = a + 1 + i by omega] at this
    exact this

theorem readBulk_length (m : Mem) (a n : Nat) : (readBulk m a n).length = n := by
  induction n generalizing a with
  | zero => rfl
  | succ k ih => simp [readBulk, ih]

theorem readBulk_bget (m : Mem) (a n i : Nat) (hi : i < n) :
    bget (readBulk m a n) i = readByte m (a + i) := by
  induction n generalizing a i with
  | zero => omega
  | succ k ih =>
    cases i with
    | zero => simp [readBulk, bget]
    | succ j =>
      simp only [readBulk]
      have : bget (readByte m a :: readBulk m (a + 1) k) (j + 1)
          = bget (readBulk m (a + 1) k) j := rfl
      rw [this, ih _ _ (by omega)]
      congr 1
      omega

theorem EventTrb.to_bytes_length (e : EventTrb) (c : Bool) :
    (e.to_bytes c).length = 16 := by
  cases e <;> simp [to_bytes, payloadBytes, leBytes]

/- Bit-arithmetic helper lemmas. -/

theorem land15_eq_mod (y : Nat) : y &&& 15 = y % 16 :=
  Nat.and_pow_two_sub_one_eq_mod y 4

theorem land1_eq_mod (y : Nat) : y &&& 1 = y % 2 :=
  Nat.and_one_is_mod y

theorem land_high_mask (y : Nat) (hy : y < U64MOD) :
    y &&& (U64MOD - 16) = 16 * (y / 16) := by
  have hy' : y < 2 ^ 64 := by simpa [U64MOD] using hy
  apply Nat.eq_of_testBit_eq
  intro i
  rw [Nat.testBit_land]
  have hmask : U64MOD - 16 = 2 ^ 4 * (2 ^ 60 - 1) := by norm_num [U64MOD]
  rw [hmask, Nat.testBit_mul_pow_two, Nat.testBit_two_pow_sub_one]
  rw [show (16 : Nat) * (y / 16) = 2 ^ 4 * (y / 16) by norm_num,
    Nat.testBit_mul_pow_two]
  by_cases h4 : 4 ≤ i
  · have hdiv : (y / 16).testBit (i - 4) = y.testBit i := by
      rw [show y / 16 = y >>> 4 by simp [Nat.shiftRight_eq_div_pow],
        Nat.testBit_shiftRight]
      congr 1
      omega
    simp only [h4, decide_True, Bool.true_and, hdiv]
    by_cases h64 : i - 4 < 60
    · simp [h64]
    · simp only [h64, decide_False, Bool.and_false]
      have : y.testBit i = false :=
        Nat.testBit_eq_false_of_lt
          (lt_of_lt_of_le hy' (Nat.pow_le_pow_right (by norm_num) (by omega)))
      simp [this]
  · simp [h4]

theorem lor_low (x b : Nat) (hx : x % 16 = 0) (hb : b < 16) : x ||| b = x + b := by
  obtain ⟨q, rfl⟩ : ∃ q, x = 16 * q := ⟨x / 16, by omega⟩
  apply Nat.eq_of_testBit_eq
  intro i
  rw [Nat.testBit_lor]
  rw [show (16 : Nat) * q = 2 ^ 4 * q by norm_num, Nat.testBit_mul_pow_two,
    Nat.testBit_mul_pow_two_add q (show b < 2 ^ 4 by omega)]
  by_cases h4 : i < 4
  · simp [h4, show ¬ 4 ≤ i by omega]
  · have hble : b < 2 ^ i := by
      calc b < 16 := hb
        _ = 2 ^ 4 := by norm_num
        _ ≤ 2 ^ i := Nat.pow_le_pow_right (by norm_num) (by omega)
    have hb' : b.testBit i = false := Nat.testBit_eq_false_of_lt hble
    simp [h4, show 4 ≤ i by omega, hb']

theorem writeLE_readByte_out (m : Mem) (a : Nat) (n : Nat) (v x : Nat)
    (hgood : a + n < U64MOD) (hx : x < U64MOD) (hout : x < a ∨ a + n ≤ x) :
    readByte (writeLE m a n v) x = readByte m x := by
  induction n generalizing m a v with
  | zero => rfl
  | succ k ih =>
    simp only [writeLE]
    rw [ih _ _ _ (by omega) (by omega)]
    apply readByte_writeByte_other
    have ha : wrap64 a = a := Nat.mod_eq_of_lt (by omega)
    have hxx : wrap64 x = x := Nat.mod_eq_of_lt hx
    rw [ha, hxx]
    omega

theorem readLE_writeLE (m : Mem) (a n v : Nat) (hgood : a + n < U64MOD) :
    readLE (writeLE m a n v) a n = v % 256 ^ n := by
  induction n generalizing m a v with
  | zero => simp [readLE, writeLE, Nat.mod_one]
  | succ k ih =>
    simp only [readLE, writeLE]
    rw [writeLE_readByte_out _ _ _ _ _ (by omega) (by omega) (by omega)]
    rw [readByte_writeByte_same, ih _ _ _ (by omega)]
    rw [show (256 : Nat) ^ (k + 1) = 256 * 256 ^ k by ring, Nat.mod_mul]

/-- Claim C1: the spec says a fetched No Op Command is handled like every
other supported command, with a Success Command Completion Event and an
interrupt, and must not abort. The code instead hits todo and panics in
handle_command: for every controller state, memory and command address,
handling a No Op command crashes. -/
theorem c1_noop_command_crashes (x : XhciController) (m : Mem) (address : Nat) :
    x.handle_command m { address := address, variant := .NoOp } = .crash := rfl

/-- Claim C3 (code divergence): a release fence separates the last
guest-memory store from the event enqueue on the command path and on the
device-to-host control path, but the code omits the fence in both endpoint
worker loops: the bulk-IN iteration stores the transfer payload (and the
endpoint-context dequeue state) and then enqueues the Transfer Event
unfenced, and the bulk-OUT iteration stores the endpoint-context dequeue
state and then enqueues unfenced. -/
theorem c3_release_fence_paths :
    releaseFenced false (handleCommandTrace [.guestStore, .guestStore]) = true ∧
    releaseFenced false controlTransferInTrace = true ∧
    releaseFenced false (transferInWorkerTrace true) = false ∧
    releaseFenced false (transferOutWorkerTrace true) = false := by
  refine ⟨rfl, rfl, rfl, rfl⟩

/-- Claim C2 (corrected): a Link or Address Device Command TRB whose
pointer has non-zero low four bits fails to decode with RsvdZViolation
(surfacing as the Unrecognized variant); a Data Stage TRB, however, is
decoded successfully regardless of its data pointer alignment, because
DataStageTrbData::parse performs no RsvdZ check. -/
theorem c2_pointer_rsvdz (b : List Nat) (hlen : b.length = 16) :
    (trbTypeOf b = trbTypeLINK → sliceLE b 0 8 &&& 15 ≠ 0 →
      CommandTrbParsed.tryFrom b = .error .RsvdZViolation ∧
      TransferTrbParsed.tryFrom b = .error .RsvdZViolation ∧
      CommandTrbVariant.parse b = .Unrecognized b .RsvdZViolation ∧
      TransferTrbVariant.parse b = .Unrecognized b .RsvdZViolation) ∧
    (trbTypeOf b = trbTypeADDRESS_DEVICE → sliceLE b 0 8 &&& 15 ≠ 0 →
      CommandTrbParsed.tryFrom b = .error .RsvdZViolation ∧
      CommandTrbVariant.parse b = .Unrecognized b .RsvdZViolation) ∧
    (trbTypeOf b = trbTypeDATA_STAGE →
      TransferTrbParsed.tryFrom b =
        .ok (.DataStage { data_pointer := sliceLE b 0 8,
                          chain := bget b 12 &&& 16 ≠ 0 }) ∧
      TransferTrbVariant.parse b =
        .DataStage { data_pointer := sliceLE b 0 8,
                     chain := bget b 12 &&& 16 ≠ 0 }) := by
  refine ⟨?_, ?_, ?_⟩
  · intro ht hp
    refine ⟨?_, ?_, ?_, ?_⟩ <;>
      simp [CommandTrbParsed.tryFrom, TransferTrbParsed.tryFrom,
        CommandTrbVariant.parse, TransferTrbVariant.parse, hlen, ht,
        LinkTrbData.parse, hp, trbTypeNORMAL, trbTypeSETUP_STAGE,
        trbTypeDATA_STAGE, trbTypeSTATUS_STAGE, trbTypeISOCH, trbTypeLINK,
        Except.map]
  · intro ht hp
    refine ⟨?_, ?_⟩ <;>
      simp [CommandTrbParsed.tryFrom, CommandTrbVariant.parse, hlen, ht,
        AddressDeviceCommandTrbData.parse, hp, trbTypeLINK,
        trbTypeENABLE_SLOT, trbTypeDISABLE_SLOT, trbTypeADDRESS_DEVICE,
        Except.map]
  · intro ht
    refine ⟨?_, ?_⟩ <;>
      simp [TransferTrbParsed.tryFrom, TransferTrbVariant.parse, hlen, ht,
        DataStageTrbData.parse, trbTypeNORMAL, trbTypeSETUP_STAGE,
        trbTypeDATA_STAGE, Except.map]

/-- Claim C2 witness: the Link clause applied to a concrete Link TRB with
an unaligned segment pointer. -/
theorem c2_pointer_rsvdz_witness :
    CommandTrbParsed.tryFrom [8, 0, 0, 0, 0, 0, 0, 0, 0, 0, 0, 0, 0, 24, 0, 0] =
      .error .RsvdZViolation :=
  ((c2_pointer_rsvdz [8, 0, 0, 0, 0, 0, 0, 0, 0, 0, 0, 0, 0, 24, 0, 0]
    (by decide)).1 (by decide) (by decide)).1

/-- Claim C2 counterexample: the claim as stated also covers the Data
Stage TRB, but decoding a Data Stage TRB with data pointer 8 (non-zero low
four bits) succeeds instead of yielding RsvdZViolation. -/
theorem c2_counterexample_data_stage :
    TransferTrbParsed.tryFrom c2DataStageBuf =
      .ok (.DataStage { data_pointer := 8, chain := false }) ∧
    TransferTrbParsed.tryFrom c2DataStageBuf ≠ .error .RsvdZViolation := by
  exact ⟨by decide, by decide⟩

theorem next_trb_buffer_spec (r : CommandRing) (m : Mem) :
    r.next_trb_buffer m =
      if trbCycleBit (readBulk m r.dequeue_pointer 16) = r.cycle_state
      then some (readBulk m r.dequeue_pointer 16) else none := by
  unfold CommandRing.next_trb_buffer trbCycleBit
  rcases Nat.mod_two_eq_zero_or_one (bget (readBulk m r.dequeue_pointer 16) 12) with hk | hk <;>
    cases hc : r.cycle_state <;>
    simp [hc, Nat.and_one_is_mod, hk]

theorem CommandTrbVariant.isLink_true_iff (v : CommandTrbVariant) :
    v.isLink = true ↔ ∃ ld, v = .Link ld := by
  cases v <;> simp [CommandTrbVariant.isLink]

theorem next_command_trb_stale (r : CommandRing) (m : Mem)
    (hstale : trbCycleBit (readBulk m r.dequeue_pointer 16) ≠ r.cycle_state) :
    r.next_command_trb m = .ok (none, r) := by
  simp only [CommandRing.next_command_trb, next_trb_buffer_spec, if_neg hstale]

theorem next_command_trb_fresh_nonlink (r : CommandRing) (m : Mem)
    (hfresh : trbCycleBit (readBulk m r.dequeue_pointer 16) = r.cycle_state)
    (hlink : (CommandTrbVariant.parse (readBulk m r.dequeue_pointer 16)).isLink = false) :
    r.next_command_trb m = .ok
      (some { address := r.dequeue_pointer,
              variant := CommandTrbVariant.parse (readBulk m r.dequeue_pointer 16) },
       { r with dequeue_pointer := wrap64 (r.dequeue_pointer + TRB_SIZE) }) := by
  rcases hv : CommandTrbVariant.parse (readBulk m r.dequeue_pointer 16) with
    _ | _ | d | d | _ | _ | d | _ | d | _ | _ | ld | ⟨raw, e⟩ <;>
    rw [hv] at hlink <;>
    simp only [CommandTrbVariant.isLink] at hlink <;>
    first
      | exact Bool.noConfusion hlink
      | simp [CommandRing.next_command_trb, next_trb_buffer_spec, hfresh, hv]

theorem next_command_trb_link_stale (r : CommandRing) (m : Mem) (ld : LinkTrbData)
    (hfresh : trbCycleBit (readBulk m r.dequeue_pointer 16) = r.cycle_state)
    (hparse : CommandTrbVariant.parse (readBulk m r.dequeue_pointer 16) = .Link ld)
    (hstale2 : trbCycleBit (readBulk m ld.ring_segment_pointer 16) ≠
      (if ld.toggle_cycle then !r.cycle_state else r.cycle_state)) :
    r.next_command_trb m = .ok (none,
      { r with dequeue_pointer := ld.ring_segment_pointer,
               cycle_state := if ld.toggle_cycle then !r.cycle_state
                              else r.cycle_state }) := by
  simp [CommandRing.next_command_trb, next_trb_buffer_spec, hfresh, hparse, hstale2]

theorem next_command_trb_link_link (r : CommandRing) (m : Mem) (ld ld2 : LinkTrbData)
    (hfresh : trbCycleBit (readBulk m r.dequeue_pointer 16) = r.cycle_state)
    (hparse : CommandTrbVariant.parse (readBulk m r.dequeue_pointer 16) = .Link ld)
    (hfresh2 : trbCycleBit (readBulk m ld.ring_segment_pointer 16) =
      (if ld.toggle_cycle then !r.cycle_state else r.cycle_state))
    (hparse2 : CommandTrbVariant.parse (readBulk m ld.ring_segment_pointer 16) = .Link ld2) :
    r.next_command_trb m = .crash := by
  simp [CommandRing.next_command_trb, next_trb_buffer_spec, hfresh, hparse,
    hfresh2, hparse2]

theorem next_command_trb_link_nonlink (r : CommandRing) (m : Mem) (ld : LinkTrbData)
    (hfresh : trbCycleBit (readBulk m r.dequeue_pointer 16) = r.cycle_state)
    (hparse : CommandTrbVariant.parse (readBulk m r.dequeue_pointer 16) = .Link ld)
    (hfresh2 : trbCycleBit (readBulk m ld.ring_segment_pointer 16) =
      (if ld.toggle_cycle then !r.cycle_state else r.cycle_state))
    (hnl : (CommandTrbVariant.parse (readBulk m ld.ring_segment_pointer 16)).isLink = false) :
    r.next_command_trb m = .ok
      (some { address := ld.ring_segment_pointer,
              variant := CommandTrbVariant.parse (readBulk m ld.ring_segment_pointer 16) },
       { r with dequeue_pointer := wrap64 (ld.ring_segment_pointer + TRB_SIZE),
                cycle_state := if ld.toggle_cycle then !r.cycle_state
                               else r.cycle_state }) := by
  rcases hv : CommandTrbVariant.parse (readBulk m ld.ring_segment_pointer 16) with
    _ | _ | d | d | _ | _ | d | _ | d | _ | _ | ld2 | ⟨raw, e⟩ <;>
    rw [hv] at hnl <;>
    simp only [CommandTrbVariant.isLink] at hnl <;>
    first
      | exact Bool.noConfusion hnl
      | simp [CommandRing.next_command_trb, next_trb_buffer_spec, hfresh, hparse,
          hfresh2, hv]

/-- Claim C4: command-ring fetch semantics. A cycle-bit mismatch at the
dequeue pointer yields none with the ring state unchanged. A fresh Link
TRB sets the dequeue pointer to its segment pointer and flips the consumer
cycle exactly when toggle_cycle is set; exactly one more TRB is fetched
there: stale yields none with the chased state, a second Link crashes, and
otherwise the parsed command is returned. A returned command carries the
guest address it was fetched from, and the dequeue pointer ends one TRB
(16 bytes) past that address. -/
theorem c4_next_command_trb (m : Mem) (r : CommandRing) :
    (trbCycleBit (readBulk m r.dequeue_pointer 16) ≠ r.cycle_state →
      r.next_command_trb m = .ok (none, r)) ∧
    (∀ ld : LinkTrbData,
      trbCycleBit (readBulk m r.dequeue_pointer 16) = r.cycle_state →
      CommandTrbVariant.parse (readBulk m r.dequeue_pointer 16) = .Link ld →
      ((trbCycleBit (readBulk m ld.ring_segment_pointer 16) ≠
          (if ld.toggle_cycle then !r.cycle_state else r.cycle_state) →
        r.next_command_trb m = .ok (none,
          { r with dequeue_pointer := ld.ring_segment_pointer,
                   cycle_state := if ld.toggle_cycle then !r.cycle_state
                                  else r.cycle_state })) ∧
       (∀ ld2, trbCycleBit (readBulk m ld.ring_segment_pointer 16) =
          (if ld.toggle_cycle then !r.cycle_state else r.cycle_state) →
        CommandTrbVariant.parse (readBulk m ld.ring_segment_pointer 16) = .Link ld2 →
        r.next_command_trb m = .crash) ∧
       (trbCycleBit (readBulk m ld.ring_segment_pointer 16) =
          (if ld.toggle_cycle then !r.cycle_state else r.cycle_state) →
        (CommandTrbVariant.parse (readBulk m ld.ring_segment_pointer 16)).isLink = false →
        r.next_command_trb m = .ok
          (some { address := ld.ring_segment_pointer,
                  variant := CommandTrbVariant.parse (readBulk m ld.ring_segment_pointer 16) },
           { r with dequeue_pointer := wrap64 (ld.ring_segment_pointer + TRB_SIZE),
                    cycle_state := if ld.toggle_cycle then !r.cycle_state
                                   else r.cycle_state })))) ∧
    (trbCycleBit (readBulk m r.dequeue_pointer 16) = r.cycle_state →
     (CommandTrbVariant.parse (readBulk m r.dequeue_pointer 16)).isLink = false →
      r.next_command_trb m = .ok
        (some { address := r.dequeue_pointer,
                variant := CommandTrbVariant.parse (readBulk m r.dequeue_pointer 16) },
         { r with dequeue_pointer := wrap64 (r.dequeue_pointer + TRB_SIZE) })) ∧
    (∀ cmd r2, r.next_command_trb m = .ok (some cmd, r2) →
      r2.dequeue_pointer = wrap64 (cmd.address + TRB_SIZE)) := by
  refine ⟨next_command_trb_stale r m, ?_, next_command_trb_fresh_nonlink r m, ?_⟩
  · intro ld hfresh hparse
    exact ⟨next_command_trb_link_stale r m ld hfresh hparse,
      fun ld2 hfresh2 hparse2 =>
        next_command_trb_link_link r m ld ld2 hfresh hparse hfresh2 hparse2,
      next_command_trb_link_nonlink r m ld hfresh hparse⟩
  · intro cmd r2 hres
    by_cases h1 : trbCycleBit (readBulk m r.dequeue_pointer 16) = r.cycle_state
    · by_cases hl : (CommandTrbVariant.parse (readBulk m r.dequeue_pointer 16)).isLink = true
      · obtain ⟨ld, hv⟩ := (CommandTrbVariant.isLink_true_iff _).1 hl
        by_cases h2 : trbCycleBit (readBulk m ld.ring_segment_pointer 16) =
            (if ld.toggle_cycle then !r.cycle_state else r.cycle_state)
        · by_cases hl2 :
              (CommandTrbVariant.parse (readBulk m ld.ring_segment_pointer 16)).isLink = true
          · obtain ⟨ld2, hv2⟩ := (CommandTrbVariant.isLink_true_iff _).1 hl2
            rw [next_command_trb_link_link r m ld ld2 h1 hv h2 hv2] at hres
            exact Res.noConfusion hres
          · rw [next_command_trb_link_nonlink r m ld h1 hv h2 (by simpa using hl2)] at hres
            simp only [Res.ok.injEq, Prod.mk.injEq, Option.some.injEq] at hres
            obtain ⟨hcmd, hr2⟩ := hres
            rw [← hr2, ← hcmd]
        · rw [next_command_trb_link_stale r m ld h1 hv h2] at hres
          simp at hres
      · rw [next_command_trb_fresh_nonlink r m h1 (by simpa using hl)] at hres
        simp only [Res.ok.injEq, Prod.mk.injEq, Option.some.injEq] at hres
        obtain ⟨hcmd, hr2⟩ := hres
        rw [← hr2, ← hcmd]
    · rw [next_command_trb_stale r m h1] at hres
      simp at hres

/-- Claim C4 witness: the Link-chase clause at the concrete scenario: the
fetch returns the No Op at address 512, the dequeue pointer ends at 528
and the consumer cycle was toggled to 0. -/
theorem c4_next_command_trb_witness :
    trbCycleBit (readBulk mE4 rE4.dequeue_pointer 16) = rE4.cycle_state ∧
    rE4.next_command_trb mE4 = .ok
      (some { address := 512, variant := .NoOp },
       { running := false, dequeue_pointer := 528, cycle_state := false }) := by
  refine ⟨by decide, ?_⟩
  have h := ((c4_next_command_trb mE4 rE4).2.1
    { ring_segment_pointer := 512, toggle_cycle := true }
    (by decide) (by decide)).2.2 (by decide) (by decide)
  exact h.trans (by decide)

theorem list_ext_bget (l1 l2 : List Nat) (hlen : l1.length = l2.length)
    (h : ∀ i, i < l1.length → bget l1 i = bget l2 i) : l1 = l2 := by
  apply List.ext_getElem hlen
  intro i h1 h2
  have := h i h1
  rwa [bget, bget, List.getD_eq_getElem l1 0 h1, List.getD_eq_getElem l2 0 h2] at this

theorem readBulk_writeBulk (m : Mem) (a : Nat) (bs : List Nat)
    (hgood : a + bs.length < U64MOD) (hlt : ∀ b ∈ bs, b < 256) :
    readBulk (writeBulk m a bs) a bs.length = bs := by
  apply list_ext_bget
  · rw [readBulk_length]
  · intro i hi
    rw [readBulk_length] at hi
    rw [readBulk_bget _ _ _ _ hi, writeBulk_readByte_in _ _ _ _ hgood hi]
    have hmem : bget bs i ∈ bs := by
      rw [bget, List.getD_eq_getElem bs 0 hi]
      apply List.getElem_mem
    exact Nat.mod_eq_of_lt (hlt _ hmem)

theorem enqueue_not_full (r : EventRing) (m : Mem) (e : EventTrb)
    (hfull : r.check_event_ring_full m = false) :
    r.enqueue m e = .ok
      (({ r with trb_count := r.trb_count - 1 } : EventRing).advance_enqueue_pointer
        (writeBulk m r.enqueue_pointer (e.to_bytes r.cycle_state)),
       writeBulk m r.enqueue_pointer (e.to_bytes r.cycle_state)) := by
  simp [EventRing.enqueue, hfull]

theorem psc_bytes_lt (c : Bool) :
    ∀ b ∈ (EventTrb.PortStatusChange 0).to_bytes c, b < 256 := by
  cases c <;> decide

theorem psc_cycle_bit (c : Bool) :
    trbCycleBit ((EventTrb.PortStatusChange 0).to_bytes c) = c := by
  cases c <;> decide

theorem status_running_hch (x : XhciController) (h : x.running = true) :
    x.status &&& usbstsHCH = 0 := by
  unfold XhciController.status
  rw [h]
  decide

/-- Claim C7: a USBCMD write with bit 0 set while the controller is halted
enqueues exactly one PortStatusChange event for port 0 at the event-ring
enqueue pointer, stamped with the current producer cycle, raises exactly
one interrupt, and a subsequent USBSTS read has HCH (bit 0) clear. The
guest memory after the call differs from before only by that one 16-byte
event TRB write. -/
theorem c7_run_port_status_change (x : XhciController) (m : Mem) (v : Nat)
    (hhalted : x.running = false)
    (hbit : v &&& 1 = 1)
    (hfull : x.event_ring.check_event_ring_full m = false)
    (hgood : x.event_ring.enqueue_pointer + 16 < U64MOD) :
    ∃ x' m', x.run m v = .ok (x', m') ∧
      x'.running = true ∧
      x'.interrupts = x.interrupts + 1 ∧
      m' = writeBulk m x.event_ring.enqueue_pointer
        ((EventTrb.PortStatusChange 0).to_bytes x.event_ring.cycle_state) ∧
      readBulk m' x.event_ring.enqueue_pointer 16 =
        (EventTrb.PortStatusChange 0).to_bytes x.event_ring.cycle_state ∧
      trbCycleBit (readBulk m' x.event_ring.enqueue_pointer 16) =
        x.event_ring.cycle_state ∧
      x'.status &&& usbstsHCH = 0 := by
  have hb : (decide (v &&& 1 = 1) : Bool) = true := by simp [hbit]
  have hread : readBulk
      (writeBulk m x.event_ring.enqueue_pointer
        ((EventTrb.PortStatusChange 0).to_bytes x.event_ring.cycle_state))
      x.event_ring.enqueue_pointer 16 =
      (EventTrb.PortStatusChange 0).to_bytes x.event_ring.cycle_state := by
    have h16 := EventTrb.to_bytes_length (EventTrb.PortStatusChange 0)
      x.event_ring.cycle_state
    rw [show (16 : Nat) = ((EventTrb.PortStatusChange 0).to_bytes
      x.event_ring.cycle_state).length from h16.symm]
    exact readBulk_writeBulk _ _ _ (by rw [h16]; exact hgood)
      (psc_bytes_lt x.event_ring.cycle_state)
  have hrun : x.run m v = .ok
      ({ x with running := decide (v &&& 1 = 1),
                event_ring :=
                  ({ x.event_ring with trb_count := x.event_ring.trb_count - 1 } :
                    EventRing).advance_enqueue_pointer
                    (writeBulk m x.event_ring.enqueue_pointer
                      ((EventTrb.PortStatusChange 0).to_bytes x.event_ring.cycle_state)),
                interrupts := x.interrupts + 1 },
       writeBulk m x.event_ring.enqueue_pointer
         ((EventTrb.PortStatusChange 0).to_bytes x.event_ring.cycle_state)) := by
    simp only [XhciController.run, hb, if_true]
    rw [enqueue_not_full x.event_ring m (.PortStatusChange 0) hfull]
  refine ⟨_, _, hrun, hb, rfl, rfl, hread, ?_, status_running_hch _ hb⟩
  rw [hread]
  exact psc_cycle_bit x.event_ring.cycle_state

/-- Claim C7 witness: the run transition at a concrete halted controller
writes one cycle-stamped PortStatusChange TRB at the enqueue pointer and
raises one interrupt. -/
theorem c7_run_port_status_change_witness :
    xC7.running = false ∧ (1 : Nat) &&& 1 = 1 ∧
    xC7.event_ring.check_event_ring_full mZero = false ∧
    ∃ x' m', xC7.run mZero 1 = .ok (x', m') ∧ x'.running = true ∧
      x'.interrupts = 1 ∧ trbCycleBit (readBulk m' 48 16) = true := by
  obtain ⟨x', m', h1, h2, h3, _, _, h6, _⟩ :=
    c7_run_port_status_change xC7 mZero 1 rfl (by decide) (by decide) (by decide)
  exact ⟨rfl, by decide, by decide, x', m', h1, h2, h3, h6⟩

theorem c8_overlay_length (m : Mem) (P : Nat) :
    (((((readBulk m P 1056).set (32 + 15) (2 * 8)).set 64 1).drop 32).take 64).length
      = 64 := by
  simp [readBulk_length]

theorem c8_overlay_bget (m : Mem) (P i : Nat) (hi : i < 64) :
    bget (((((readBulk m P 1056).set (32 + 15) (2 * 8)).set 64 1).drop 32).take 64) i =
      if i = 32 then 1 else if i = 15 then 16 else readByte m (P + (32 + i)) := by
  have hlen : i < (((((readBulk m P 1056).set (32 + 15) (2 * 8)).set 64 1).drop
      32).take 64).length := by rw [c8_overlay_length]; exact hi
  rw [bget, List.getD_eq_getElem _ 0 hlen]
  have h1 : (32 + i) < ((readBulk m P 1056).set (32 + 15) (2 * 8)).length := by
    simp [readBulk_length]; omega
  rw [List.getElem_take, List.getElem_drop, List.getElem_set, List.getElem_set]
  by_cases h32 : i = 32
  · simp [h32]
  · by_cases h15 : i = 15
    · simp [h15]
    · have e1 : ¬ (64 = 32 + i) := by omega
      have e2 : ¬ (32 + 15 = 32 + i) := by omega
      rw [if_neg e1, if_neg e2, if_neg h32, if_neg h15]
      have h2 : 32 + i < (readBulk m P 1056).length := by rw [readBulk_length]; omega
      rw [← List.getD_eq_getElem _ 0 h2]
      exact readBulk_bget m P 1056 (32 + i) (by omega)

/-- Claim C8: an Address Device command for a reserved slot with exactly
the A0 and A1 add flags reads the device-context address from the slot's
DCBAA entry and copies bytes 32..96 of the input context there, except
that byte 15 of the slot context becomes 16 (state Addressed: bits 7:3
equal 2, bits 2:0 zero) and byte 32 (the EP0 state byte) becomes 1
(Running); no guest memory outside those 64 device-context bytes is
written, and any other flag combination crashes. -/
theorem c8_address_device (m : Mem) (s : DeviceSlotManager) (slot_id P D : Nat)
    (hused : s.used_slots.contains slot_id = true)
    (hD : readLE m (wrap64 (s.dcbaap + slot_id * 8)) 8 = D)
    (hflags : readLE m P 8 = 12884901888)
    (hDgood : D + 64 < U64MOD) :
    s.get_device_context m slot_id = .ok D ∧
    (∃ m', DeviceContext.initialize D m P = .ok m' ∧
      readByte m' (D + 15) = 16 ∧
      readByte m' (D + 15) / 8 = 2 ∧ readByte m' (D + 15) % 8 = 0 ∧
      readByte m' (D + 32) = 1 ∧
      (∀ i, i < 64 → i ≠ 15 → i ≠ 32 →
        readByte m' (D + i) = readByte m (P + (32 + i))) ∧
      (∀ a, a < U64MOD → (a < D ∨ D + 64 ≤ a) → readByte m' a = readByte m a)) ∧
    (∀ (m0 : Mem) (P0 : Nat), readLE m0 P0 8 ≠ 12884901888 →
      DeviceContext.initialize D m0 P0 = .crash) := by
  refine ⟨?_, ?_, ?_⟩
  · have hmem : slot_id ∈ s.used_slots := by simpa using hused
    simp [DeviceSlotManager.get_device_context, hused, hD, hmem]
  · have hinit : DeviceContext.initialize D m P = .ok
        (writeBulk m D
          (((((readBulk m P 1056).set (32 + 15) (2 * 8)).set 64 1).drop 32).take 64)) := by
      simp [ DeviceContext.initialize, hflags]
    refine ⟨_, hinit, ?_, ?_, ?_, ?_, ?_, ?_⟩
    · rw [writeBulk_readByte_in _ _ _ _ (by rw [c8_overlay_length]; exact hDgood)
        (by rw [c8_overlay_length]; omega)]
      rw [c8_overlay_bget _ _ _ (by omega)]
      norm_num
    · rw [writeBulk_readByte_in _ _ _ _ (by rw [c8_overlay_length]; exact hDgood)
        (by rw [c8_overlay_length]; omega)]
      rw [c8_overlay_bget _ _ _ (by omega)]
      norm_num
    · rw [writeBulk_readByte_in _ _ _ _ (by rw [c8_overlay_length]; exact hDgood)
        (by rw [c8_overlay_length]; omega)]
      rw [c8_overlay_bget _ _ _ (by omega)]
      norm_num
    · rw [writeBulk_readByte_in _ _ _ _ (by rw [c8_overlay_length]; exact hDgood)
        (by rw [c8_overlay_length]; omega)]
      rw [c8_overlay_bget _ _ _ (by omega)]
      norm_num
    · intro i hi h15 h32
      rw [writeBulk_readByte_in _ _ _ _ (by rw [c8_overlay_length]; exact hDgood)
        (by rw [c8_overlay_length]; omega)]
      rw [c8_overlay_bget _ _ _ hi, if_neg h32, if_neg h15]
      exact Nat.mod_eq_of_lt (readByte_lt m _)
    · intro a ha hout
      exact writeBulk_readByte_out _ _ _ _
        (by rw [c8_overlay_length]; exact hDgood) ha
        (by rw [c8_overlay_length]; exact hout)
  · intro m0 P0 hne
    simp [ DeviceContext.initialize, hne]

/-- Claim C8 witness: the Address Device copy at a concrete input context:
the slot lookup yields 8192, byte 15 of the slot context becomes 16, the
EP0 state byte becomes 1, and slot-context byte 0 is copied from the input
context. -/
theorem c8_address_device_witness :
    sC8.get_device_context mC8 1 = .ok 8192 ∧
    ∃ m', DeviceContext.initialize 8192 mC8 4096 = .ok m' ∧
      readByte m' (8192 + 15) = 16 ∧
      readByte m' (8192 + 32) = 1 ∧
      readByte m' (8192 + 0) = 171 := by
  obtain ⟨h1, ⟨m', h2, h3, _, _, h4, h5, _⟩, _⟩ :=
    c8_address_device mC8 sC8 1 4096 8192 (by decide) (by decide) (by decide) (by decide)
  exact ⟨h1, m', h2, h3, h4, (h5 0 (by omega) (by omega) (by omega)).trans (by decide)⟩

theorem leBytes_length (v n : Nat) : (leBytes v n).length = n := by
  induction n generalizing v with
  | zero => rfl
  | succ k ih => simp [leBytes, ih]

theorem leBytes_bget (v n i : Nat) (hi : i < n) :
    bget (leBytes v n) i = v / 256 ^ i % 256 := by
  induction n generalizing v i with
  | zero => omega
  | succ k ih =>
    cases i with
    | zero => simp [leBytes, bget]
    | succ j =>
      have : bget (leBytes v (k + 1)) (j + 1) = bget (leBytes (v / 256) k) j := rfl
      rw [this, ih _ _ (by omega), Nat.div_div_eq_div_mul]
      congr 2
      ring

theorem writeBytes_rw_mask (r : RegisterSet) (a : Nat) (bs : List Nat) :
    (r.writeBytes a bs).rw_mask = r.rw_mask := by
  induction bs generalizing r a with
  | nil => rfl
  | cons b bs ih => simpa [RegisterSet.writeBytes] using ih _ (a + 1)

theorem writeBytes_w1c_mask (r : RegisterSet) (a : Nat) (bs : List Nat) :
    (r.writeBytes a bs).w1c_mask = r.w1c_mask := by
  induction bs generalizing r a with
  | nil => rfl
  | cons b bs ih => simpa [RegisterSet.writeBytes] using ih _ (a + 1)

theorem writeBytes_data (r : RegisterSet) (a : Nat) (bs : List Nat) (off : Nat) :
    (r.writeBytes a bs).data off =
      if a ≤ off ∧ off < a + bs.length then
        writeMaskedByte (r.data off) (r.rw_mask off) (r.w1c_mask off) (bget bs (off - a))
      else r.data off := by
  induction bs generalizing r a with
  | nil =>
    simp only [RegisterSet.writeBytes, List.length_nil]
    rw [if_neg (by omega)]
  | cons b bs ih =>
    simp only [RegisterSet.writeBytes]
    rw [ih]
    by_cases h1 : a + 1 ≤ off ∧ off < a + 1 + bs.length
    · rw [if_pos h1, if_pos (by simp; omega)]
      have hne : ¬ off = a := by omega
      simp only [hne, if_false]
      congr 1
      have : off - a = (off - (a + 1)) + 1 := by omega
      rw [this]
      rfl
    · rw [if_neg h1]
      by_cases h2 : off = a
      · subst h2
        rw [if_pos (by refine ⟨le_refl _, ?_⟩; simp)]
        simp [bget]
      · simp only [h2, if_false]
        rw [if_neg (by simp; omega)]

theorem write_data (r : RegisterSet) (req : Request) (v : Nat) (off : Nat) :
    (r.write req v).data off =
      if req.addr ≤ off ∧ off < req.addr + req.size.toNat then
        writeMaskedByte (r.data off) (r.rw_mask off) (r.w1c_mask off)
          (v / 256 ^ (off - req.addr) % 256)
      else r.data off := by
  unfold RegisterSet.write
  rw [writeBytes_data, leBytes_length]
  by_cases h : req.addr ≤ off ∧ off < req.addr + req.size.toNat
  · rw [if_pos h, if_pos h, leBytes_bget _ _ _ (by omega)]
  · rw [if_neg h, if_neg h]

theorem applyWrites_rw_mask (r : RegisterSet) (ws : List (Request × Nat)) :
    (r.applyWrites ws).rw_mask = r.rw_mask := by
  induction ws generalizing r with
  | nil => rfl
  | cons w ws ih =>
    obtain ⟨req, v⟩ := w
    simp only [RegisterSet.applyWrites]
    rw [ih]
    exact writeBytes_rw_mask r req.addr _

theorem applyWrites_w1c_mask (r : RegisterSet) (ws : List (Request × Nat)) :
    (r.applyWrites ws).w1c_mask = r.w1c_mask := by
  induction ws generalizing r with
  | nil => rfl
  | cons w ws ih =>
    obtain ⟨req, v⟩ := w
    simp only [RegisterSet.applyWrites]
    rw [ih]
    exact writeBytes_w1c_mask r req.addr _

theorem applyWrites_data (r : RegisterSet) (ws : List (Request × Nat)) (p : Nat) :
    (r.applyWrites ws).data p =
      (byteWritesAt p ws).foldl
        (fun old b => writeMaskedByte old (r.rw_mask p) (r.w1c_mask p) b)
        (r.data p) := by
  induction ws generalizing r with
  | nil => rfl
  | cons w ws ih =>
    obtain ⟨req, v⟩ := w
    simp only [RegisterSet.applyWrites, byteWritesAt]
    rw [ih]
    have hrw := writeBytes_rw_mask r req.addr (leBytes v req.size.toNat)
    have hw1c := writeBytes_w1c_mask r req.addr (leBytes v req.size.toNat)
    unfold RegisterSet.write
    rw [hrw, hw1c, writeBytes_data, leBytes_length]
    by_cases h : req.addr ≤ p ∧ p < req.addr + req.size.toNat
    · rw [if_pos h, if_pos h, leBytes_bget _ _ _ (by omega)]
      simp
    · rw [if_neg h, if_neg h]
      simp

theorem testBit_255 (j : Nat) (hj : j < 8) : Nat.testBit 255 j = true := by
  interval_cases j <;> decide

theorem wmb_testBit_ro (old rw w1c b j : Nat) (hj : j < 8)
    (hrw : rw.testBit j = false) (hw1c : w1c.testBit j = false) :
    (writeMaskedByte old rw w1c b).testBit j = old.testBit j := by
  unfold writeMaskedByte
  simp [Nat.testBit_land, Nat.testBit_lor, Nat.testBit_xor, hrw, hw1c, testBit_255 j hj]

theorem wmb_testBit_rw (old rw w1c b j : Nat) (hj : j < 8)
    (hrw : rw.testBit j = true) (hw1c : w1c.testBit j = false) :
    (writeMaskedByte old rw w1c b).testBit j = b.testBit j := by
  unfold writeMaskedByte
  simp [Nat.testBit_land, Nat.testBit_lor, Nat.testBit_xor, hrw, hw1c, testBit_255 j hj]

theorem wmb_testBit_w1c (old rw w1c b j : Nat) (hj : j < 8)
    (hrw : rw.testBit j = false) (hw1c : w1c.testBit j = true) :
    (writeMaskedByte old rw w1c b).testBit j = (old.testBit j && !(b.testBit j)) := by
  unfold writeMaskedByte
  simp [Nat.testBit_land, Nat.testBit_lor, Nat.testBit_xor, hrw, hw1c, testBit_255 j hj]

theorem foldl_wmb_ro (rw w1c j : Nat) (hj : j < 8)
    (hrw : rw.testBit j = false) (hw1c : w1c.testBit j = false) :
    ∀ (bs : List Nat) (old : Nat),
      ((bs.foldl (fun old b => writeMaskedByte old rw w1c b) old).testBit j)
        = old.testBit j := by
  intro bs
  induction bs with
  | nil => intro old; rfl
  | cons b bs ih =>
    intro old
    simp only [List.foldl_cons]
    rw [ih, wmb_testBit_ro _ _ _ _ _ hj hrw hw1c]

theorem foldl_wmb_rw (rw w1c j : Nat) (hj : j < 8)
    (hrw : rw.testBit j = true) (hw1c : w1c.testBit j = false) :
    ∀ (bs : List Nat) (old : Nat), bs ≠ [] →
      ((bs.foldl (fun old b => writeMaskedByte old rw w1c b) old).testBit j)
        = (bs.getLastD 0).testBit j := by
  intro bs
  induction bs with
  | nil => intro old h; exact absurd rfl h
  | cons b bs ih =>
    intro old _
    simp only [List.foldl_cons]
    cases bs with
    | nil =>
      simp only [List.foldl_nil, List.getLastD]
      exact wmb_testBit_rw _ _ _ _ _ hj hrw hw1c
    | cons b2 bs2 =>
      rw [ih _ (by simp)]
      simp [List.getLastD]

theorem foldl_wmb_w1c (rw w1c j : Nat) (hj : j < 8)
    (hrw : rw.testBit j = false) (hw1c : w1c.testBit j = true) :
    ∀ (bs : List Nat) (old : Nat),
      ((bs.foldl (fun old b => writeMaskedByte old rw w1c b) old).testBit j)
        = (old.testBit j && !(bs.any (fun b => b.testBit j))) := by
  intro bs
  induction bs with
  | nil => intro old; simp
  | cons b bs ih =>
    intro old
    simp only [List.foldl_cons, List.any_cons]
    rw [ih, wmb_testBit_w1c _ _ _ _ _ hj hrw hw1c]
    cases old.testBit j <;> cases b.testBit j <;> simp

/-- Claim C9 (corrected): each addressed byte of a masked register write
becomes ((old and not rw) or (in and rw)) with every W1C bit written with
one then cleared; consequently, under any write sequence, a bit outside
both masks keeps its initial value, a bit in the RW mask holds the bit of
the last byte written to that offset, and a bit in the W1C mask is 0
exactly when it was ever written with 1 or its initial value was already
0 (masks disjoint). -/
theorem c9_register_set_write (r : RegisterSet) (ws : List (Request × Nat)) (p j : Nat)
    (hj : j < 8)
    (hdisj : r.rw_mask p &&& r.w1c_mask p = 0) :
    (∀ (req : Request) (val i : Nat), i < req.size.toNat →
      (r.write req val).data (req.addr + i) =
        writeMaskedByte (r.data (req.addr + i)) (r.rw_mask (req.addr + i))
          (r.w1c_mask (req.addr + i)) (val / 256 ^ i % 256)) ∧
    ((r.rw_mask p).testBit j = false → (r.w1c_mask p).testBit j = false →
      ((r.applyWrites ws).data p).testBit j = (r.data p).testBit j) ∧
    ((r.rw_mask p).testBit j = true → byteWritesAt p ws ≠ [] →
      ((r.applyWrites ws).data p).testBit j =
        ((byteWritesAt p ws).getLastD 0).testBit j) ∧
    ((r.w1c_mask p).testBit j = true →
      (((r.applyWrites ws).data p).testBit j = false ↔
        (everWrittenOne p j ws = true ∨ (r.data p).testBit j = false))) := by
  refine ⟨?_, ?_, ?_, ?_⟩
  · intro req val i hi
    rw [write_data, if_pos (by omega), Nat.add_sub_cancel_left]
  · intro h1 h2
    rw [applyWrites_data]
    exact foldl_wmb_ro _ _ _ hj h1 h2 _ _
  · intro h1 hne
    have h2 : (r.w1c_mask p).testBit j = false := by
      have hbit := congrArg (fun x => Nat.testBit x j) hdisj
      simp only [Nat.testBit_land, Nat.zero_testBit, h1, Bool.true_and] at hbit
      exact hbit
    rw [applyWrites_data]
    exact foldl_wmb_rw _ _ _ hj h1 h2 _ _ hne
  · intro h1
    have h2 : (r.rw_mask p).testBit j = false := by
      have hbit := congrArg (fun x => Nat.testBit x j) hdisj
      simp only [Nat.testBit_land, Nat.zero_testBit, h1, Bool.and_true] at hbit
      exact hbit
    rw [applyWrites_data, foldl_wmb_w1c _ _ _ hj h2 h1]
    unfold everWrittenOne
    cases hd : (r.data p).testBit j <;>
      cases ha : (byteWritesAt p ws).any (fun b => b.testBit j) <;> simp

/-- Claim C9 witness: the RW-bit and W1C-bit clauses at a concrete
register set and write sequence. -/
theorem c9_register_set_write_witness :
    rC9w.rw_mask 0 &&& rC9w.w1c_mask 0 = 0 ∧
    ((rC9w.applyWrites wsC9).data 0).testBit 1 =
      ((byteWritesAt 0 wsC9).getLastD 0).testBit 1 ∧
    (((rC9w.applyWrites wsC9).data 0).testBit 5 = false ↔
      (everWrittenOne 0 5 wsC9 = true ∨ (rC9w.data 0).testBit 5 = false)) := by
  refine ⟨by decide, ?_, ?_⟩
  · exact (c9_register_set_write rC9w wsC9 0 1 (by decide) (by decide)).2.2.1
      (by decide) (by decide)
  · exact (c9_register_set_write rC9w wsC9 0 5 (by decide) (by decide)).2.2.2
      (by decide)

/-- Claim C9 counterexample: for a W1C bit whose initial value is 0 and an
empty write sequence, the byte's bit reads 0 although it was never written
with 1, refuting the claimed equivalence as literally stated. -/
theorem c9_counterexample_w1c_iff :
    ¬ ((((rC9.applyWrites []).data 0).testBit 0 = false) ↔
        everWrittenOne 0 0 [] = true) := by
  decide

/-- Claim C10: Bus::add is atomic on failure. Whenever add returns an
error, the bus value is unchanged, so every subsequent read routes exactly
as before; a DeviceOutOfRange error means the new range overflowed u64 or
ended beyond the bus size, and an OverlapsExistingDevice error exhibits an
existing entry overlapping the new range. -/
theorem c10_bus_add_atomic (b : Bus) (start_addr : Nat) (device : MDevice) :
    ∀ e, (b.add start_addr device).fst = some e →
      (b.add start_addr device).snd = b ∧
      (∀ req, (b.add start_addr device).snd.read req = b.read req) ∧
      (∀ bus_size as ae, e = .DeviceOutOfRange bus_size as ae →
        bus_size = b.size ∧ as = start_addr ∧
        (U64MOD ≤ start_addr + device.dsize ∨ b.size < start_addr + device.dsize)) ∧
      (∀ es ee as ae, e = .OverlapsExistingDevice es ee as ae →
        as = start_addr ∧ ae = start_addr + device.dsize ∧
        ∃ en ∈ b.devices, en.range_start = es ∧ en.range_end = ee ∧
          rangeOverlaps es ee start_addr (start_addr + device.dsize) = true) := by
  intro e he
  by_cases h1 : U64MOD ≤ start_addr + device.dsize
  · rw [Bus.add, if_pos h1] at he ⊢
    simp only [Option.some.injEq] at he
    refine ⟨rfl, fun req => rfl, ?_, ?_⟩
    · intro bus_size as ae hde
      rw [← he] at hde
      cases hde
      exact ⟨rfl, rfl, Or.inl h1⟩
    · intro es ee as ae hov
      rw [← he] at hov
      cases hov
  · rw [Bus.add, if_neg h1] at he ⊢
    by_cases h2 : b.size < start_addr + device.dsize
    · rw [if_pos h2] at he ⊢
      simp only [Option.some.injEq] at he
      refine ⟨rfl, fun req => rfl, ?_, ?_⟩
      · intro bus_size as ae hde
        rw [← he] at hde
        cases hde
        exact ⟨rfl, rfl, Or.inr h2⟩
      · intro es ee as ae hov
        rw [← he] at hov
        cases hov
    · rw [if_neg h2] at he ⊢
      generalize hf : b.devices.find? (fun en =>
          rangeOverlaps en.range_start en.range_end start_addr
            (start_addr + device.dsize)) = fres at he ⊢
      cases fres with
      | none => simp at he
      | some en =>
        have he2 : AddBusDeviceError.OverlapsExistingDevice en.range_start
            en.range_end start_addr (start_addr + device.dsize) = e := by
          simpa using he
        refine ⟨rfl, fun req => rfl, ?_, ?_⟩
        · intro bus_size as ae hde
          rw [← he2] at hde
          cases hde
        · intro es ee as ae hov
          rw [← he2] at hov
          cases hov
          exact ⟨rfl, rfl, en, List.mem_of_find?_eq_some hf, rfl, rfl,
            by simpa using List.find?_some hf⟩

/-- Claim C10 witness: adding a device overlapping the existing entry at
10..20 fails with OverlapsExistingDevice and leaves the bus unchanged. -/
theorem c10_bus_add_atomic_witness :
    (busC10.add 12 { dsize := 2, readv := fun _ => 7 }).fst =
      some (.OverlapsExistingDevice 10 20 12 14) ∧
    (busC10.add 12 { dsize := 2, readv := fun _ => 7 }).snd = busC10 ∧
    (busC10.add 12 { dsize := 2, readv := fun _ => 7 }).snd.read
        { addr := 15, size := .size1 } =
      busC10.read { addr := 15, size := .size1 } := by
  have hfst : (busC10.add 12 { dsize := 2, readv := fun _ => 7 }).fst =
      some (.OverlapsExistingDevice 10 20 12 14) := by
    rw [Bus.add, if_neg (by decide), if_neg (by decide)]
    rfl
  obtain ⟨hsnd, hread, _, _⟩ :=
    c10_bus_add_atomic busC10 12 { dsize := 2, readv := fun _ => 7 } _ hfst
  exact ⟨hfst, hsnd, hread _⟩

/-!
Transfer-ring fetch lemmas and control-transfer reassembly, for Claim C6.
-/

theorem tr_next_trb_buffer_spec (t : TransferRing) (m : Mem) (A : Nat) (c : Bool)
    (hget : t.endpoint_context.get_dequeue_pointer_and_cycle_state m = (A, c)) :
    t.next_trb_buffer m =
      if trbCycleBit (readBulk m A 16) = c then some (readBulk m A 16) else none := by
  unfold TransferRing.next_trb_buffer trbCycleBit
  rcases Nat.mod_two_eq_zero_or_one (bget (readBulk m A 16) 12) with hk | hk <;>
    cases c <;> simp [hget, Nat.and_one_is_mod, hk]

theorem get_dequeue_after_set (e : EndpointContext) (m : Mem) (B : Nat) (c : Bool)
    (hE : e.address + 16 < U64MOD) (hB : B < U64MOD) (halign : B % 16 = 0) :
    EndpointContext.get_dequeue_pointer_and_cycle_state e
      (writeLE m (wrap64 (e.address + 8)) 8 (B ||| (if c then 1 else 0))) = (B, c) := by
  have hU : U64MOD = 18446744073709551616 := rfl
  have hwa : wrap64 (e.address + 8) = e.address + 8 := Nat.mod_eq_of_lt (by omega)
  have hcb : (if c then 1 else 0) < 16 := by cases c <;> norm_num
  have hcb1 : (if c then 1 else 0) ≤ 1 := by cases c <;> norm_num
  have hlor : B ||| (if c then 1 else 0) = B + (if c then 1 else 0) :=
    lor_low _ _ halign hcb
  have hlt : B + (if c then 1 else 0) < U64MOD := by omega
  have h2568 : (256 : Nat) ^ 8 = U64MOD := by rw [hU]; norm_num
  have hrd : readLE (writeLE m (wrap64 (e.address + 8)) 8 (B ||| (if c then 1 else 0)))
      (wrap64 (e.address + 8)) 8 = B + (if c then 1 else 0) := by
    rw [readLE_writeLE m (wrap64 (e.address + 8)) 8 (B ||| (if c then 1 else 0))
      (by rw [hwa]; omega), hlor, h2568, Nat.mod_eq_of_lt hlt]
  have hhigh : (B + (if c then 1 else 0)) &&& (U64MOD - 16) = B := by
    rw [land_high_mask _ hlt]
    omega
  have hlow : (B + (if c then 1 else 0)) &&& 1 = (if c then 1 else 0) := by
    rw [land1_eq_mod]
    omega
  simp only [EndpointContext.get_dequeue_pointer_and_cycle_state]
  rw [hrd, hhigh, hlow]
  cases c <;> simp

theorem ntt_fresh_nonlink (t : TransferRing) (m : Mem) (A : Nat) (c : Bool)
    (hget : t.endpoint_context.get_dequeue_pointer_and_cycle_state m = (A, c))
    (halign : A % 16 = 0) (hA16 : A + 16 < U64MOD)
    (hfresh : trbCycleBit (readBulk m A 16) = c)
    (hnl : (TransferTrbVariant.parse (readBulk m A 16)).isLink = false) :
    t.next_transfer_trb m = .ok
      (some { address := A, variant := TransferTrbVariant.parse (readBulk m A 16) },
       writeLE m (wrap64 (t.endpoint_context.address + 8)) 8
         ((A + 16) ||| (if c then 1 else 0))) := by
  have hw : wrap64 (A + TRB_SIZE) = A + 16 := Nat.mod_eq_of_lt hA16
  have hal : (A + 16) &&& 15 = 0 := by rw [land15_eq_mod]; omega
  rcases hv : TransferTrbVariant.parse (readBulk m A 16) with
    d | d | d | _ | _ | ld | _ | _ | ⟨raw, er⟩ <;>
    rw [hv] at hnl <;>
    simp only [TransferTrbVariant.isLink] at hnl <;>
    first
      | exact Bool.noConfusion hnl
      | simp [TransferRing.next_transfer_trb, tr_next_trb_buffer_spec t m A c hget,
          hget, hfresh, hv, EndpointContext.set_dequeue_pointer_and_cycle_state,
          hw, hal]

theorem ntt_stale (t : TransferRing) (m : Mem) (A : Nat) (c : Bool)
    (hget : t.endpoint_context.get_dequeue_pointer_and_cycle_state m = (A, c))
    (hstale : trbCycleBit (readBulk m A 16) ≠ c) :
    t.next_transfer_trb m = .ok (none, m) := by
  simp [TransferRing.next_transfer_trb, hget,
    tr_next_trb_buffer_spec t m A c hget, hstale]

theorem ntt_chain_step (t : TransferRing) (m0 m : Mem) (A B : Nat) (c : Bool)
    (hE : t.endpoint_context.address + 16 < U64MOD)
    (hnw : A + 48 < U64MOD)
    (hdisj : A + 48 ≤ t.endpoint_context.address + 8 ∨
      t.endpoint_context.address + 16 ≤ A)
    (hB1 : A ≤ B) (hB2 : B + 16 ≤ A + 48) (hBal : B % 16 = 0)
    (hget : t.endpoint_context.get_dequeue_pointer_and_cycle_state m = (B, c))
    (hreads : ∀ X k, A ≤ X → X + k ≤ A + 48 → readBulk m X k = readBulk m0 X k)
    (hfresh : trbCycleBit (readBulk m0 B 16) = c)
    (hnl : (TransferTrbVariant.parse (readBulk m0 B 16)).isLink = false) :
    ∃ m2, t.next_transfer_trb m = .ok
        (some { address := B, variant := TransferTrbVariant.parse (readBulk m0 B 16) },
          m2) ∧
      t.endpoint_context.get_dequeue_pointer_and_cycle_state m2 = (B + 16, c) ∧
      (∀ X k, A ≤ X → X + k ≤ A + 48 → readBulk m2 X k = readBulk m0 X k) := by
  have hwE : wrap64 (t.endpoint_context.address + 8) = t.endpoint_context.address + 8 :=
    Nat.mod_eq_of_lt (by omega)
  have hr := hreads B 16 hB1 hB2
  have e := ntt_fresh_nonlink t m B c hget hBal (by omega) (by rw [hr]; exact hfresh)
    (by rw [hr]; exact hnl)
  refine ⟨writeLE m (wrap64 (t.endpoint_context.address + 8)) 8
      ((B + 16) ||| (if c then 1 else 0)), ?_, ?_, ?_⟩
  · rw [e, hr]
  · exact get_dequeue_after_set t.endpoint_context m (B + 16) c hE (by omega) (by omega)
  · intro X k hX1 hX2
    have hout : readBulk (writeLE m (wrap64 (t.endpoint_context.address + 8)) 8
        ((B + 16) ||| (if c then 1 else 0))) X k = readBulk m X k := by
      apply readBulk_congr
      intro i hi
      apply writeLE_readByte_out
      · rw [hwE]; omega
      · omega
      · rw [hwE]; omega
    rw [hout]
    exact hreads X k hX1 hX2

theorem ntt_chain_stale (t : TransferRing) (m0 m : Mem) (A B : Nat) (c : Bool)
    (hB1 : A ≤ B) (hB2 : B + 16 ≤ A + 48)
    (hget : t.endpoint_context.get_dequeue_pointer_and_cycle_state m = (B, c))
    (hreads : ∀ X k, A ≤ X → X + k ≤ A + 48 → readBulk m X k = readBulk m0 X k)
    (hstale : trbCycleBit (readBulk m0 B 16) ≠ c) :
    t.next_transfer_trb m = .ok (none, m) := by
  have hr := hreads B 16 hB1 hB2
  exact ntt_stale t m B c hget (by rw [hr]; exact hstale)

/-- Claim C6: control-transfer reassembly. On a ring whose fresh TRBs are
a Setup Stage, an optional Data Stage with chain clear, and a Status Stage,
next_request returns a UsbRequest whose request_type, request, value, index
and length come from the Setup Stage TRB, whose data pointer is the Data
Stage pointer or none when that stage is absent, and whose address is the
guest address of the Status Stage TRB; the dequeue state ends 16 bytes past
the Status Stage. A fresh first TRB of another type, a missing following
stage, or a following stage of the wrong type yields the structured errors
UnexpectedTrbType and MissingTrb. -/
theorem c6_next_request (t : TransferRing) (m : Mem) (A : Nat) (c : Bool)
    (hE : t.endpoint_context.address + 16 < U64MOD)
    (hget : t.endpoint_context.get_dequeue_pointer_and_cycle_state m = (A, c))
    (halign : A % 16 = 0) (hnw : A + 48 < U64MOD)
    (hdisj : A + 48 ≤ t.endpoint_context.address + 8 ∨
      t.endpoint_context.address + 16 ≤ A) :
    (∀ sd dd,
      trbCycleBit (readBulk m A 16) = c →
      TransferTrbVariant.parse (readBulk m A 16) = .SetupStage sd →
      trbCycleBit (readBulk m (A + 16) 16) = c →
      TransferTrbVariant.parse (readBulk m (A + 16) 16) = .DataStage dd →
      dd.chain = false →
      trbCycleBit (readBulk m (A + 32) 16) = c →
      TransferTrbVariant.parse (readBulk m (A + 32) 16) = .StatusStage →
      ∃ mf, t.next_request m = .ok (some (.ok
          { address := A + 32, request_type := sd.request_type,
            request := sd.request, value := sd.value, index := sd.index,
            length := sd.length, data := some dd.data_pointer }), mf) ∧
        t.endpoint_context.get_dequeue_pointer_and_cycle_state mf = (A + 48, c)) ∧
    (∀ sd,
      trbCycleBit (readBulk m A 16) = c →
      TransferTrbVariant.parse (readBulk m A 16) = .SetupStage sd →
      trbCycleBit (readBulk m (A + 16) 16) = c →
      TransferTrbVariant.parse (readBulk m (A + 16) 16) = .StatusStage →
      ∃ mf, t.next_request m = .ok (some (.ok
          { address := A + 16, request_type := sd.request_type,
            request := sd.request, value := sd.value, index := sd.index,
            length := sd.length, data := none }), mf) ∧
        t.endpoint_context.get_dequeue_pointer_and_cycle_state mf = (A + 32, c)) ∧
    (∀ v,
      trbCycleBit (readBulk m A 16) = c →
      TransferTrbVariant.parse (readBulk m A 16) = v →
      v.isSetupStage = false → v.isLink = false →
      ∃ mf, t.next_request m = .ok (some (.error
        (.UnexpectedTrbType [trbTypeSETUP_STAGE] v)), mf)) ∧
    (∀ sd,
      trbCycleBit (readBulk m A 16) = c →
      TransferTrbVariant.parse (readBulk m A 16) = .SetupStage sd →
      trbCycleBit (readBulk m (A + 16) 16) ≠ c →
      ∃ mf, t.next_request m = .ok (some (.error .MissingTrb), mf)) ∧
    (∀ sd v,
      trbCycleBit (readBulk m A 16) = c →
      TransferTrbVariant.parse (readBulk m A 16) = .SetupStage sd →
      trbCycleBit (readBulk m (A + 16) 16) = c →
      TransferTrbVariant.parse (readBulk m (A + 16) 16) = v →
      v.isDataStage = false → v.isStatusStage = false → v.isLink = false →
      ∃ mf, t.next_request m = .ok (some (.error
        (.UnexpectedTrbType [trbTypeDATA_STAGE, trbTypeSTATUS_STAGE] v)), mf)) ∧
    (∀ sd dd,
      trbCycleBit (readBulk m A 16) = c →
      TransferTrbVariant.parse (readBulk m A 16) = .SetupStage sd →
      trbCycleBit (readBulk m (A + 16) 16) = c →
      TransferTrbVariant.parse (readBulk m (A + 16) 16) = .DataStage dd →
      dd.chain = false →
      trbCycleBit (readBulk m (A + 32) 16) ≠ c →
      ∃ mf, t.next_request m = .ok (some (.error .MissingTrb), mf)) ∧
    (∀ sd dd v,
      trbCycleBit (readBulk m A 16) = c →
      TransferTrbVariant.parse (readBulk m A 16) = .SetupStage sd →
      trbCycleBit (readBulk m (A + 16) 16) = c →
      TransferTrbVariant.parse (readBulk m (A + 16) 16) = .DataStage dd →
      dd.chain = false →
      trbCycleBit (readBulk m (A + 32) 16) = c →
      TransferTrbVariant.parse (readBulk m (A + 32) 16) = v →
      v.isStatusStage = false → v.isLink = false →
      ∃ mf, t.next_request m = .ok (some (.error
        (.UnexpectedTrbType [trbTypeSTATUS_STAGE] v)), mf)) := by
  refine ⟨?_, ?_, ?_, ?_, ?_, ?_, ?_⟩
  · intro sd dd h1c h1p h2c h2p hch h3c h3p
    obtain ⟨m1, e1, hget1, hr1⟩ := ntt_chain_step t m m A A c hE hnw hdisj
      (le_refl A) (by omega) halign hget (fun X k _ _ => rfl) h1c (by rw [h1p]; rfl)
    rw [h1p] at e1
    obtain ⟨m2, e2, hget2, hr2⟩ := ntt_chain_step t m m1 A (A + 16) c hE hnw hdisj
      (by omega) (by omega) (by omega) hget1 hr1 h2c (by rw [h2p]; rfl)
    rw [h2p] at e2
    obtain ⟨m3, e3, hget3, hr3⟩ := ntt_chain_step t m m2 A (A + 32) c hE hnw hdisj
      (by omega) (by omega) (by omega)
      (by rw [show A + 16 + 16 = A + 32 by omega] at hget2; exact hget2) hr2 h3c
      (by rw [h3p]; rfl)
    rw [h3p] at e3
    refine ⟨m3, ?_,
      by rw [show A + 32 + 16 = A + 48 by omega] at hget3; exact hget3⟩
    simp [TransferRing.next_request, e1, e2, e3, hch]
  · intro sd h1c h1p h2c h2p
    obtain ⟨m1, e1, hget1, hr1⟩ := ntt_chain_step t m m A A c hE hnw hdisj
      (le_refl A) (by omega) halign hget (fun X k _ _ => rfl) h1c (by rw [h1p]; rfl)
    rw [h1p] at e1
    obtain ⟨m2, e2, hget2, hr2⟩ := ntt_chain_step t m m1 A (A + 16) c hE hnw hdisj
      (by omega) (by omega) (by omega) hget1 hr1 h2c (by rw [h2p]; rfl)
    rw [h2p] at e2
    refine ⟨m2, ?_,
      by rw [show A + 16 + 16 = A + 32 by omega] at hget2; exact hget2⟩
    simp [TransferRing.next_request, e1, e2]
  · intro v h1c h1p hns hnl
    obtain ⟨m1, e1, hget1, hr1⟩ := ntt_chain_step t m m A A c hE hnw hdisj
      (le_refl A) (by omega) halign hget (fun X k _ _ => rfl) h1c
      (by rw [h1p]; exact hnl)
    rw [h1p] at e1
    refine ⟨m1, ?_⟩
    cases v <;>
      simp only [TransferTrbVariant.isSetupStage] at hns <;>
      simp only [TransferTrbVariant.isLink] at hnl <;>
      first
        | exact Bool.noConfusion hns
        | exact Bool.noConfusion hnl
        | simp [TransferRing.next_request, e1]
  · intro sd h1c h1p h2stale
    obtain ⟨m1, e1, hget1, hr1⟩ := ntt_chain_step t m m A A c hE hnw hdisj
      (le_refl A) (by omega) halign hget (fun X k _ _ => rfl) h1c (by rw [h1p]; rfl)
    rw [h1p] at e1
    have e2 := ntt_chain_stale t m m1 A (A + 16) c (by omega) (by omega)
      hget1 hr1 h2stale
    exact ⟨m1, by simp [TransferRing.next_request, e1, e2]⟩
  · intro sd v h1c h1p h2c h2p hnd hnst hnl
    obtain ⟨m1, e1, hget1, hr1⟩ := ntt_chain_step t m m A A c hE hnw hdisj
      (le_refl A) (by omega) halign hget (fun X k _ _ => rfl) h1c (by rw [h1p]; rfl)
    rw [h1p] at e1
    obtain ⟨m2, e2, hget2, hr2⟩ := ntt_chain_step t m m1 A (A + 16) c hE hnw hdisj
      (by omega) (by omega) (by omega) hget1 hr1 h2c (by rw [h2p]; exact hnl)
    rw [h2p] at e2
    refine ⟨m2, ?_⟩
    cases v <;>
      simp only [TransferTrbVariant.isDataStage] at hnd <;>
      simp only [TransferTrbVariant.isStatusStage] at hnst <;>
      simp only [TransferTrbVariant.isLink] at hnl <;>
      first
        | exact Bool.noConfusion hnd
        | exact Bool.noConfusion hnst
        | exact Bool.noConfusion hnl
        | simp [TransferRing.next_request, e1, e2]
  · intro sd dd h1c h1p h2c h2p hch h3stale
    obtain ⟨m1, e1, hget1, hr1⟩ := ntt_chain_step t m m A A c hE hnw hdisj
      (le_refl A) (by omega) halign hget (fun X k _ _ => rfl) h1c (by rw [h1p]; rfl)
    rw [h1p] at e1
    obtain ⟨m2, e2, hget2, hr2⟩ := ntt_chain_step t m m1 A (A + 16) c hE hnw hdisj
      (by omega) (by omega) (by omega) hget1 hr1 h2c (by rw [h2p]; rfl)
    rw [h2p] at e2
    have e3 := ntt_chain_stale t m m2 A (A + 32) c (by omega) (by omega)
      (by rw [show A + 16 + 16 = A + 32 by omega] at hget2; exact hget2) hr2 h3stale
    exact ⟨m2, by simp [TransferRing.next_request, e1, e2, hch, e3]⟩
  · intro sd dd v h1c h1p h2c h2p hch h3c h3p hnst hnl
    obtain ⟨m1, e1, hget1, hr1⟩ := ntt_chain_step t m m A A c hE hnw hdisj
      (le_refl A) (by omega) halign hget (fun X k _ _ => rfl) h1c (by rw [h1p]; rfl)
    rw [h1p] at e1
    obtain ⟨m2, e2, hget2, hr2⟩ := ntt_chain_step t m m1 A (A + 16) c hE hnw hdisj
      (by omega) (by omega) (by omega) hget1 hr1 h2c (by rw [h2p]; rfl)
    rw [h2p] at e2
    obtain ⟨m3, e3, hget3, hr3⟩ := ntt_chain_step t m m2 A (A + 32) c hE hnw hdisj
      (by omega) (by omega) (by omega)
      (by rw [show A + 16 + 16 = A + 32 by omega] at hget2; exact hget2) hr2 h3c
      (by rw [h3p]; exact hnl)
    rw [h3p] at e3
    refine ⟨m3, ?_⟩
    cases v <;>
      simp only [TransferTrbVariant.isStatusStage] at hnst <;>
      simp only [TransferTrbVariant.isLink] at hnl <;>
      first
        | exact Bool.noConfusion hnst
        | exact Bool.noConfusion hnl
        | simp [TransferRing.next_request, e1, e2, e3, hch]

/-- Claim C6 witness: on the concrete ring the three TRBs reassemble into
the GET_DESCRIPTOR request whose address is 8224 (the Status Stage TRB)
and whose data pointer is 12288, and the dequeue state ends at 8240 with
the cycle unchanged. -/
theorem c6_next_request_witness :
    ∃ mf, tC6.next_request mC6 = .ok (some (.ok
        { address := 8224, request_type := 128, request := 6, value := 256,
          index := 0, length := 18, data := some 12288 }), mf) ∧
      tC6.endpoint_context.get_dequeue_pointer_and_cycle_state mf = (8240, true) := by
  have h := (c6_next_request tC6 mC6 8192 true (by decide) (by decide) (by decide)
      (by decide) (by decide)).1
    { request_type := 128, request := 6, value := 256, index := 0, length := 18 }
    { data_pointer := 12288, chain := false }
    (by decide) (by decide) (by decide) (by decide) (by decide) (by decide) (by decide)
  simpa using h

theorem segs_getD_mem (segs : List (Nat × Nat)) (j : Nat) (hj : j < segs.length) :
    (segBase segs j, segCount segs j) ∈ segs := by
  unfold segBase segCount
  rw [List.getD_eq_getElem segs (0, 0) hj]
  exact List.getElem_mem hj

theorem tailCount_succ (segs : List (Nat × Nat)) (j : Nat) (hj : j < segs.length) :
    tailCount segs j = segCount segs j + tailCount segs (j + 1) := by
  unfold tailCount segCount
  have hj2 : j < (segs.map (fun s => s.2)).length := by simpa using hj
  rw [List.getD_eq_getElem segs (0, 0) hj]
  rw [show (segs.drop j).map (fun s => s.2) = (segs.map (fun s => s.2)).drop j
    from by simp]
  rw [List.drop_eq_getElem_cons hj2, List.sum_cons]
  simp

theorem tailCount_end (segs : List (Nat × Nat)) (j : Nat) (hj : segs.length ≤ j) :
    tailCount segs j = 0 := by
  unfold tailCount
  rw [List.drop_eq_nil_of_le hj]
  rfl

theorem erst_entry_read (segs : List (Nat × Nat)) (Bt : Nat) (m : Mem)
    (hnwT : Bt + 16 * segs.length < U64MOD)
    (j : Nat) (hj : j < segs.length) (hm : erstMatches m Bt segs) :
    readLE m (wrap64 (wrap64 (Bt + j * 16) + erstBASE_ADDR)) 8 = segBase segs j ∧
    readLE m (wrap64 (wrap64 (Bt + j * 16) + erstSIZE)) 4 = segCount segs j := by
  have h1 : wrap64 (Bt + j * 16) = Bt + j * 16 := Nat.mod_eq_of_lt (by omega)
  constructor
  · rw [h1]
    have h2 : wrap64 (Bt + j * 16 + erstBASE_ADDR) = Bt + j * 16 := by
      unfold erstBASE_ADDR
      rw [Nat.add_zero]
      exact Nat.mod_eq_of_lt (by omega)
    rw [h2]
    exact (hm j hj).1
  · rw [h1]
    have h2 : wrap64 (Bt + j * 16 + erstSIZE) = Bt + j * 16 + 8 := by
      unfold erstSIZE
      exact Nat.mod_eq_of_lt (by omega)
    rw [h2]
    exact (hm j hj).2

theorem erstMatches_writeBulk (segs : List (Nat × Nat)) (Bt : Nat) (m : Mem)
    (a : Nat) (bs : List Nat) (s : Nat × Nat)
    (hnwT : Bt + 16 * segs.length < U64MOD)
    (hm : erstMatches m Bt segs)
    (hs : s ∈ segs) (ha1 : s.1 ≤ a) (ha2 : a + bs.length ≤ s.1 + 16 * s.2)
    (hdisjs : s.1 + 16 * s.2 ≤ Bt ∨ Bt + 16 * segs.length ≤ s.1)
    (hsnw : s.1 + 16 * s.2 < U64MOD) :
    erstMatches (writeBulk m a bs) Bt segs := by
  intro j hj
  have h8 : ∀ off n, off + n ≤ 16 →
      readLE (writeBulk m a bs) (Bt + j * 16 + off) n =
        readLE m (Bt + j * 16 + off) n := by
    intro off n hoffn
    apply readLE_congr
    intro i hi
    apply writeBulk_readByte_out
    · omega
    · omega
    · omega
  have e0 := h8 0 8 (by omega)
  rw [Nat.add_zero] at e0
  constructor
  · rw [e0]
    exact (hm j hj).1
  · rw [h8 8 4 (by omega)]
    exact (hm j hj).2

theorem erstate_not_full (segs : List (Nat × Nat)) (Bt dq : Nat)
    (hnwT : Bt + 16 * segs.length < U64MOD)
    (hdq : ∀ s ∈ segs, ∀ i, i ≤ s.2 → dq ≠ s.1 + 16 * i)
    (hsegnw : ∀ s ∈ segs, s.1 + 16 * s.2 < U64MOD)
    (j i : Nat) (c : Bool) (m : Mem)
    (hj : j < segs.length) (hi : i < segCount segs j)
    (hm : erstMatches m Bt segs) :
    (erState segs Bt dq j i c).check_event_ring_full m = false := by
  have hmemj := segs_getD_mem segs j hj
  have hcnt : segBase segs j + 16 * segCount segs j < U64MOD := hsegnw _ hmemj
  have hdqj : ∀ l, l ≤ segCount segs j → dq ≠ segBase segs j + 16 * l := hdq _ hmemj
  unfold EventRing.check_event_ring_full erState
  simp only []
  by_cases hone : segCount segs j - i = 1
  · rw [if_pos hone]
    have hns : (j + 1) % segs.length < segs.length :=
      Nat.mod_lt _ (by omega)
    have hrd := erst_entry_read segs Bt m hnwT ((j + 1) % segs.length) hns hm
    rw [hrd.1]
    have hne : dq ≠ segBase segs ((j + 1) % segs.length) := by
      have h0 := hdq _ (segs_getD_mem segs _ hns) 0 (Nat.zero_le _)
      simpa using h0
    simp [hne]
  · rw [if_neg hone]
    have hw : wrap64 (segBase segs j + 16 * i + TRB_SIZE) =
        segBase segs j + 16 * (i + 1) := by
      rw [show segBase segs j + 16 * i + TRB_SIZE = segBase segs j + 16 * (i + 1)
        from by unfold TRB_SIZE; ring]
      exact Nat.mod_eq_of_lt (by omega)
    rw [hw]
    have hne := hdqj (i + 1) (by omega)
    simp [hne]

theorem advance_seg_spec (r : EventRing) (segs : List (Nat × Nat)) (m : Mem)
    (hnwT : r.base_address + 16 * segs.length < U64MOD)
    (hsz : r.erst_size = segs.length)
    (hj : r.erst_count < segs.length)
    (hm : erstMatches m r.base_address segs) :
    r.advance_segment_or_wrap m =
      { r with
        erst_count := if r.erst_count + 1 = segs.length then 0 else r.erst_count + 1,
        cycle_state := if r.erst_count + 1 = segs.length then !r.cycle_state
                       else r.cycle_state,
        enqueue_pointer :=
          segBase segs (if r.erst_count + 1 = segs.length then 0 else r.erst_count + 1),
        trb_count :=
          segCount segs (if r.erst_count + 1 = segs.length then 0 else r.erst_count + 1) } := by
  unfold EventRing.advance_segment_or_wrap
  simp only [hsz]
  by_cases hwrap : r.erst_count + 1 = segs.length
  · simp only [if_pos hwrap]
    have hrd := erst_entry_read segs r.base_address m hnwT 0 (by omega) hm
    rw [show r.base_address + 0 * 16 = r.base_address + (0 : Nat) * 16 from rfl,
      hrd.1, hrd.2]
  · simp only [if_neg hwrap]
    have hrd := erst_entry_read segs r.base_address m hnwT (r.erst_count + 1)
      (by omega) hm
    rw [hrd.1, hrd.2]

theorem erstate_enqueue (segs : List (Nat × Nat)) (Bt dq : Nat)
    (hnwT : Bt + 16 * segs.length < U64MOD)
    (hsegnw : ∀ s ∈ segs, s.1 + 16 * s.2 < U64MOD)
    (hdq : ∀ s ∈ segs, ∀ i, i ≤ s.2 → dq ≠ s.1 + 16 * i)
    (j i : Nat) (c : Bool) (m : Mem) (e : EventTrb)
    (hj : j < segs.length) (hi : i < segCount segs j)
    (hm : erstMatches m Bt segs)
    (hm2 : erstMatches (writeBulk m (segBase segs j + 16 * i) (e.to_bytes c)) Bt segs) :
    (erState segs Bt dq j i c).enqueue m e = .ok
      ((if i + 1 = segCount segs j then
          erState segs Bt dq (if j + 1 = segs.length then 0 else j + 1) 0
            (if j + 1 = segs.length then !c else c)
        else erState segs Bt dq j (i + 1) c),
       writeBulk m (segBase segs j + 16 * i) (e.to_bytes c)) := by
  have hfull := erstate_not_full segs Bt dq hnwT hdq hsegnw j i c m hj hi hm
  have hmem := segs_getD_mem segs j hj
  have hcnt : segBase segs j + 16 * segCount segs j < U64MOD := hsegnw _ hmem
  unfold EventRing.enqueue
  rw [if_neg (by simp [hfull])]
  simp only [erState]
  unfold EventRing.advance_enqueue_pointer
  by_cases hlast : i + 1 = segCount segs j
  · rw [if_pos (by simp; omega)]
    rw [advance_seg_spec _ segs _ hnwT rfl (by simp; omega)
      (by simpa [erState] using hm2)]
    rw [if_pos hlast]
    simp
  · rw [if_neg (by simp; omega)]
    rw [if_neg hlast]
    have hw : wrap64 (segBase segs j + 16 * i + TRB_SIZE) =
        segBase segs j + 16 * (i + 1) := by
      rw [show segBase segs j + 16 * i + TRB_SIZE = segBase segs j + 16 * (i + 1)
        from by unfold TRB_SIZE; ring]
      exact Nat.mod_eq_of_lt (by omega)
    simp [hw, Nat.sub_sub]

theorem enqueueList_append (r : EventRing) (m : Mem) (es1 es2 : List EventTrb) :
    EventRing.enqueueList r m (es1 ++ es2) =
      match EventRing.enqueueList r m es1 with
      | .crash => .crash
      | .ok (r2, m2) => EventRing.enqueueList r2 m2 es2 := by
  induction es1 generalizing r m with
  | nil => rfl
  | cons e es ihe =>
    simp only [List.cons_append, EventRing.enqueueList]
    cases r.enqueue m e with
    | crash => rfl
    | ok p =>
      cases p with
      | mk r2 m2 => exact ihe r2 m2

theorem eventring_seg_run (segs : List (Nat × Nat)) (Bt dq : Nat)
    (hnwT : Bt + 16 * segs.length < U64MOD)
    (hsegnw : ∀ s ∈ segs, s.1 + 16 * s.2 < U64MOD)
    (hdisj : ∀ s ∈ segs, s.1 + 16 * s.2 ≤ Bt ∨ Bt + 16 * segs.length ≤ s.1)
    (hdq : ∀ s ∈ segs, ∀ i, i ≤ s.2 → dq ≠ s.1 + 16 * i)
    (es : List EventTrb) :
    ∀ (i j : Nat) (m : Mem) (c : Bool),
      j < segs.length → i < segCount segs j →
      es.length = segCount segs j - i →
      erstMatches m Bt segs →
      ∃ m2, EventRing.enqueueList (erState segs Bt dq j i c) m es =
          .ok (erState segs Bt dq (if j + 1 = segs.length then 0 else j + 1) 0
            (if j + 1 = segs.length then !c else c), m2) ∧
        erstMatches m2 Bt segs := by
  induction es with
  | nil =>
    intro i j m c hj hi hlen hm
    simp only [List.length_nil] at hlen
    exact absurd hi (by omega)
  | cons e es ih =>
    intro i j m c hj hi hlen hm
    have hmem := segs_getD_mem segs j hj
    have hW : erstMatches (writeBulk m (segBase segs j + 16 * i) (e.to_bytes c))
        Bt segs := by
      apply erstMatches_writeBulk segs Bt m _ _
        (segBase segs j, segCount segs j) hnwT hm hmem
      · show segBase segs j ≤ segBase segs j + 16 * i
        omega
      · show segBase segs j + 16 * i + (e.to_bytes c).length ≤
          segBase segs j + 16 * segCount segs j
        rw [EventTrb.to_bytes_length]
        omega
      · exact hdisj _ hmem
      · exact hsegnw _ hmem
    have hstep := erstate_enqueue segs Bt dq hnwT hsegnw hdq j i c m e hj hi hm hW
    by_cases hlast : i + 1 = segCount segs j
    · rw [if_pos hlast] at hstep
      have hes : es = [] := List.length_eq_zero.mp (by simp at hlen; omega)
      subst hes
      refine ⟨writeBulk m (segBase segs j + 16 * i) (e.to_bytes c), ?_, hW⟩
      show EventRing.enqueueList _ m [e] = _
      unfold EventRing.enqueueList
      rw [hstep]
      rfl
    · rw [if_neg hlast] at hstep
      have hlen2 : es.length = segCount segs j - (i + 1) := by
        simp at hlen
        omega
      obtain ⟨m2, hrun, hm2⟩ := ih (i + 1) j
        (writeBulk m (segBase segs j + 16 * i) (e.to_bytes c)) c hj (by omega)
        hlen2 hW
      refine ⟨m2, ?_, hm2⟩
      show EventRing.enqueueList _ m (e :: es) = _
      unfold EventRing.enqueueList
      rw [hstep]
      exact hrun

theorem eventring_multi_run (segs : List (Nat × Nat)) (Bt dq : Nat)
    (hnwT : Bt + 16 * segs.length < U64MOD)
    (hsegnw : ∀ s ∈ segs, s.1 + 16 * s.2 < U64MOD)
    (hdisj : ∀ s ∈ segs, s.1 + 16 * s.2 ≤ Bt ∨ Bt + 16 * segs.length ≤ s.1)
    (hdq : ∀ s ∈ segs, ∀ i, i ≤ s.2 → dq ≠ s.1 + 16 * i)
    (hcounts : ∀ s ∈ segs, 1 ≤ s.2) :
    ∀ (n j : Nat) (es : List EventTrb) (m : Mem) (c : Bool),
      j < segs.length → j + n = segs.length →
      es.length = tailCount segs j →
      erstMatches m Bt segs →
      ∃ m2, EventRing.enqueueList (erState segs Bt dq j 0 c) m es =
          .ok (erState segs Bt dq 0 0 (!c), m2) ∧
        erstMatches m2 Bt segs := by
  intro n
  induction n with
  | zero =>
    intro j es m c hj hn hlen hm
    exact absurd hn (by omega)
  | succ k ih =>
    intro j es m c hj hn hlen hm
    have hc1 : 1 ≤ segCount segs j := hcounts _ (segs_getD_mem segs j hj)
    by_cases hlastseg : j + 1 = segs.length
    · have hlen2 : es.length = segCount segs j - 0 := by
        rw [hlen, tailCount_succ segs j hj, tailCount_end segs (j + 1) (by omega)]
        omega
      obtain ⟨m2, hrun, hm2⟩ := eventring_seg_run segs Bt dq hnwT hsegnw hdisj hdq
        es 0 j m c hj (by omega) hlen2 hm
      rw [if_pos hlastseg, if_pos hlastseg] at hrun
      exact ⟨m2, hrun, hm2⟩
    · have hj2 : j + 1 < segs.length := by omega
      have htc := tailCount_succ segs j hj
      obtain ⟨m2, hrun, hm2⟩ := eventring_seg_run segs Bt dq hnwT hsegnw hdisj hdq
        (es.take (segCount segs j)) 0 j m c hj (by omega)
        (by rw [List.length_take]; omega) hm
      rw [if_neg hlastseg, if_neg hlastseg] at hrun
      obtain ⟨m3, hrun2, hm3⟩ := ih (j + 1) (es.drop (segCount segs j)) m2 c hj2
        (by omega) (by rw [List.length_drop, hlen, htc]; omega) hm2
      refine ⟨m3, ?_, hm3⟩
      rw [show es = es.take (segCount segs j) ++ es.drop (segCount segs j)
        from (List.take_append_drop _ _).symm]
      rw [enqueueList_append, hrun]
      exact hrun2

theorem lor_low2 (x b : Nat) (hx : x % 2 = 0) (hb : b < 2) : x ||| b = x + b := by
  obtain ⟨q, rfl⟩ : ∃ q, x = 2 * q := ⟨x / 2, by omega⟩
  apply Nat.eq_of_testBit_eq
  intro i
  rw [Nat.testBit_lor]
  rw [show (2 : Nat) * q = 2 ^ 1 * q by norm_num, Nat.testBit_mul_pow_two,
    Nat.testBit_mul_pow_two_add q (show b < 2 ^ 1 by omega)]
  by_cases h1 : i < 1
  · simp [h1, show ¬ 1 ≤ i by omega]
  · have hble : b < 2 ^ i := by
      calc b < 2 := hb
        _ = 2 ^ 1 := by norm_num
        _ ≤ 2 ^ i := Nat.pow_le_pow_right (by norm_num) (by omega)
    have hbb : b.testBit i = false := Nat.testBit_eq_false_of_lt hble
    simp [h1, show 1 ≤ i by omega, hbb]

theorem to_bytes_cycle_bit (e : EventTrb) (c : Bool) :
    trbCycleBit (e.to_bytes c) = c := by
  have hlen : (e.payloadBytes.take 12).length = 12 := by
    cases e <;> simp [EventTrb.payloadBytes, leBytes]
  have hb : bget (e.to_bytes c) 12 =
      (bget e.payloadBytes 12 &&& 254) ||| (if c then 1 else 0) := by
    unfold EventTrb.to_bytes bget
    rw [List.getD_append _ _ _ _ (by simp [hlen])]
    rw [List.getD_append_right _ _ _ _ (by omega)]
    rw [hlen]
    simp
  have heven : (bget e.payloadBytes 12 &&& 254) % 2 = 0 := by
    have h1 : (bget e.payloadBytes 12 &&& 254) &&& 1 = 0 := by
      rw [Nat.and_assoc, show (254 : Nat) &&& 1 = 0 from by decide, Nat.and_zero]
    rw [land1_eq_mod] at h1
    exact h1
  have hcb : (if c then 1 else 0) < 2 := by cases c <;> norm_num
  have hlor := lor_low2 _ _ heven hcb
  unfold trbCycleBit
  rw [hb, hlor, land1_eq_mod]
  cases c <;> simp [Nat.add_mod, heven]

/-- Claim C5: event-ring wraparound. For a configured ERST whose segments
hold at least one slot each, lie inside the 64-bit space, do not overlap
the table, and whose slots are all kept clear of the dequeue pointer: each
enqueue DMA-writes the 16-byte TRB stamped with the current producer cycle
at the enqueue pointer and advances it; after exactly the total number of
slots many enqueues the producer state is back at segment 0 slot 0 (the
enqueue pointer at S0's base) with the producer cycle flipped and the ERST
intact, and the next TRB is written at S0's base carrying the flipped
cycle value in its cycle bit. -/
theorem c5_event_ring_wraparound (segs : List (Nat × Nat)) (Bt dq : Nat)
    (c : Bool) (m : Mem) (es : List EventTrb)
    (hk : 0 < segs.length)
    (hnwT : Bt + 16 * segs.length < U64MOD)
    (hsegnw : ∀ s ∈ segs, s.1 + 16 * s.2 < U64MOD)
    (hcounts : ∀ s ∈ segs, 1 ≤ s.2)
    (hdisj : ∀ s ∈ segs, s.1 + 16 * s.2 ≤ Bt ∨ Bt + 16 * segs.length ≤ s.1)
    (hdq : ∀ s ∈ segs, ∀ i, i ≤ s.2 → dq ≠ s.1 + 16 * i)
    (hm : erstMatches m Bt segs)
    (hlen : es.length = tailCount segs 0) :
    (∀ e, ∃ r2, (erState segs Bt dq 0 0 c).enqueue m e = .ok
        (r2, writeBulk m (segBase segs 0 + 16 * 0) (e.to_bytes c)) ∧
      (1 < segCount segs 0 → r2.enqueue_pointer = segBase segs 0 + 16 * 1)) ∧
    (∃ mf, EventRing.enqueueList (erState segs Bt dq 0 0 c) m es =
        .ok (erState segs Bt dq 0 0 (!c), mf) ∧
      erstMatches mf Bt segs ∧
      (∀ e, ∃ r2, (erState segs Bt dq 0 0 (!c)).enqueue mf e = .ok
          (r2, writeBulk mf (segBase segs 0 + 16 * 0) (e.to_bytes (!c))))) ∧
    (∀ e : EventTrb, trbCycleBit (e.to_bytes (!c)) = !c) := by
  have hmem0 := segs_getD_mem segs 0 hk
  have hc0 : 1 ≤ segCount segs 0 := hcounts _ hmem0
  have hWgen : ∀ (mm : Mem) (e : EventTrb) (cc : Bool), erstMatches mm Bt segs →
      erstMatches (writeBulk mm (segBase segs 0 + 16 * 0) (e.to_bytes cc)) Bt segs := by
    intro mm e cc hmm
    apply erstMatches_writeBulk segs Bt mm _ _
      (segBase segs 0, segCount segs 0) hnwT hmm hmem0
    · show segBase segs 0 ≤ segBase segs 0 + 16 * 0
      omega
    · show segBase segs 0 + 16 * 0 + (e.to_bytes cc).length ≤
        segBase segs 0 + 16 * segCount segs 0
      rw [EventTrb.to_bytes_length]
      omega
    · exact hdisj _ hmem0
    · exact hsegnw _ hmem0
  refine ⟨?_, ?_, fun e => to_bytes_cycle_bit e (!c)⟩
  · intro e
    have hstep := erstate_enqueue segs Bt dq hnwT hsegnw hdq 0 0 c m e hk
      (by omega) hm (hWgen m e c hm)
    refine ⟨_, hstep, ?_⟩
    intro h1
    rw [if_neg (by omega)]
    simp [erState]
  · obtain ⟨mf, hrun, hmf⟩ := eventring_multi_run segs Bt dq hnwT hsegnw hdisj hdq
      hcounts segs.length 0 es m c hk (by omega) hlen hm
    refine ⟨mf, hrun, hmf, ?_⟩
    intro e
    have hstep := erstate_enqueue segs Bt dq hnwT hsegnw hdq 0 0 (!c) mf e hk
      (by omega) hmf (hWgen mf e (!c) hmf)
    exact ⟨_, hstep⟩

/-- Claim C5 witness: on the two-segment table with three slots in total,
enqueuing three events returns the producer to segment 0 slot 0 with the
cycle flipped, keeps the ERST intact, and the next enqueue writes at S0's
base stamped with the flipped cycle. -/
theorem c5_event_ring_wraparound_witness :
    ∃ mf, EventRing.enqueueList (erState segsE5 0 8 0 0 true) mE5 esE5 =
        .ok (erState segsE5 0 8 0 0 (!true), mf) ∧
      erstMatches mf 0 segsE5 ∧
      (∀ e, ∃ r2, (erState segsE5 0 8 0 0 (!true)).enqueue mf e = .ok
          (r2, writeBulk mf (segBase segsE5 0 + 16 * 0) (e.to_bytes (!true)))) :=
  (c5_event_ring_wraparound segsE5 0 8 true mE5 esE5 (by decide) (by decide)
    (by decide) (by decide) (by decide) (by decide) (by decide) (by decide)).2.1
